import Mathlib

/-!
Shallow embedding of the honey_scraper repository, covering the crawl engine
of scraper.py (class HoneyScraper) and the monitored controller of
web_dashboard.py (class MonitoredScraper plus the module-level scraper_state
dictionary and the delay endpoint).

Modelling conventions.

Network transport is modelled by an outcome oracle: each HTTP attempt of one
wrapped call is given an Outcome, one per loop iteration of the Python retry
loop.  A 2xx response whose JSON decodes is Outcome.success carrying the
decoded payload; the payload is an Option so that a body lacking the expected
response path (data.getPartialURLsByDomain respectively data.getStoreById)
is success none.  HTTP 429 is Outcome.http429; requests.exceptions.Timeout
is Outcome.timeout; other RequestException cases, including the HTTPError
produced by raise_for_status, are Outcome.reqError; any other exception,
for instance malformed JSON, is Outcome.unexpected.

Floating point delays are modelled over the rationals; the Python literal 1.5
is the rational 3/2.  Calls to time.sleep are recorded in a log, one inner
list per retry-loop iteration, holding the requested sleep durations of that
iteration in order.

SQLite tables are modelled as lists of row structures.  INSERT OR REPLACE on
a primary key is modelled by removing the rows carrying that key and
appending the fresh row; DELETE followed by INSERT of child rows likewise.
The scraped_at wall-clock column of the scraped_domains table is abstracted
away (no claim depends on it); the AUTOINCREMENT id columns of the coupons
and partial_urls tables are likewise left implicit in the list positions.
json.dumps of an already-decoded payload is modelled by carrying the decoded
payload itself (for raw_json) or an opaque serialized string (for the
metadata, sources and tags blobs of a coupon).
-/

/-- Rows returned by the store-partial resolution: in the source these are
dicts carrying the keys storeId and partialURL (scraper.py,
get_store_ids_by_domain).  The field purl stands for the partialURL key. -/
structure StoreMapping where
  storeId : String
  purl : String
deriving DecidableEq, Repr

/-- Decoded coupon object from the publicCoupons array of a store detail
response.  Fields mirror the keys read by _save_store_to_db; the meta,
sources and tags blobs are carried as their serialized forms (the source
applies json.dumps to them verbatim). -/
structure CouponRecord where
  code : Option String
  dealId : Option String
  description : Option String
  created : Option Int
  expires : Option Int
  exclusive : Bool
  hidden : Bool
  restrictions : Option String
  rank : Option Int
  applied_acc_count : Option Int
  applied_acc_last_ts : Option Int
  applied_acc_last_discount : Option ℚ
  url : Option String
  meta : String
  sources : String
  tags : String
deriving DecidableEq, Repr

/-- Decoded element of the partialUrls array of a store detail response:
the source reads the keys domain and partialURL. -/
structure PUrlEntry where
  domain : Option String
  purl : Option String
deriving DecidableEq, Repr

/-- Decoded store detail payload (the object at data.getStoreById).  Fields
mirror exactly the keys read by _save_store_to_db; keys read through a
truthiness test (active, supported, ugcAllowed, forceJsRedirect) are carried
as booleans.  The field purls stands for the partialUrls key. -/
structure StoreRecord where
  name : Option String
  label : Option String
  country : Option String
  url : Option String
  logoUrl : Option String
  active : Bool
  supported : Bool
  supportStage : Option String
  created : Option Int
  updated : Option Int
  checked : Option Int
  score : Option Int
  shoppers24h : Option Int
  shoppers30d : Option Int
  shoppersChange : Option Int
  numSavings24h : Option Int
  numSavings30d : Option Int
  avgSavings24h : Option ℚ
  avgSavings30d : Option ℚ
  metadata : Option String
  affiliateURL : Option String
  affiliateRestrictions : Option String
  ugcAllowed : Bool
  freeShippingThreshold : Option ℚ
  forceJsRedirect : Bool
  launchpadPathname : Option String
  publicCoupons : List CouponRecord
  purls : List PUrlEntry
deriving DecidableEq, Repr

/-- Outcome of one HTTP attempt inside the retry loop of
get_store_ids_by_domain or get_store_details. -/
inductive Outcome (β : Type) where
  | http429 : Outcome β
  | timeout : Outcome β
  | reqError : Outcome β
  | unexpected : Outcome β
  | success : β → Outcome β
deriving DecidableEq, Repr

/-- Boolean discriminator for the success constructor. -/
def Outcome.isSuccess {β : Type} : Outcome β → Bool
  | Outcome.success _ => true
  | _ => false

/-- The shared retry loop of get_store_ids_by_domain and get_store_details
(scraper.py lines 445-481 and 510-546).  The fuel argument counts the loop
iterations that remain (initially max_retries), attempt is the Python loop
index, d the current retry_delay, and log the sleeps recorded so far, one
inner list per executed iteration.  Every iteration starts by sleeping the
current delay; a 429 doubles the delay and sleeps it again; Timeout and
other RequestException cases multiply the delay by 3/2 and sleep it only
when further attempts remain; an unexpected exception breaks out of the
loop.  The result is some payload on a decoded 2xx response and none when
the loop ends without one. -/
def retryLoop {β : Type} (outcomes : Nat → Outcome β) (max_retries : Nat) :
    Nat → Nat → ℚ → List (List ℚ) → Option β × List (List ℚ)
  | 0, _, _, log => (none, log)
  | fuel + 1, attempt, d, log =>
    match outcomes attempt with
    | Outcome.http429 =>
        retryLoop outcomes max_retries fuel (attempt + 1) (d * 2) (log ++ [[d, d * 2]])
    | Outcome.success b => (some b, log ++ [[d]])
    | Outcome.timeout =>
        if attempt < max_retries - 1 then
          retryLoop outcomes max_retries fuel (attempt + 1) (d * (3/2)) (log ++ [[d, d * (3/2)]])
        else
          retryLoop outcomes max_retries fuel (attempt + 1) (d * (3/2)) (log ++ [[d]])
    | Outcome.reqError =>
        if attempt < max_retries - 1 then
          retryLoop outcomes max_retries fuel (attempt + 1) (d * (3/2)) (log ++ [[d, d * (3/2)]])
        else
          retryLoop outcomes max_retries fuel (attempt + 1) (d * (3/2)) (log ++ [[d]])
    | Outcome.unexpected => (none, log ++ [[d]])

/-- HoneyScraper.get_store_ids_by_domain (scraper.py lines 425-481): a
wrapped call whose decoded 2xx payload is some mappings when the body holds
data.getPartialURLsByDomain and none otherwise.  Returns the list result
(empty on every failure path) together with the recorded sleep log.  The
Python method catches every exception class it can encounter, so it is
total: no exception escapes its boundary, which the embedding reflects by
returning a plain value for every oracle. -/
def get_store_ids_by_domain (delay : ℚ)
    (outcomes : Nat → Outcome (Option (List StoreMapping))) :
    List StoreMapping × List (List ℚ) :=
  let r := retryLoop outcomes 3 3 0 delay []
  match r.1 with
  | some (some ms) => (ms, r.2)
  | some none => ([], r.2)
  | none => ([], r.2)

/-- HoneyScraper.get_store_details (scraper.py lines 483-546): a wrapped
call whose decoded 2xx payload is some record when the body holds
data.getStoreById and none otherwise.  The max_ugc and success_count
parameters (defaults 3 and 1) are forwarded verbatim into the request URL
and do not influence control flow, so they are not carried by the
embedding.  Like the mapping lookup the method catches every exception it
can encounter and is total. -/
def get_store_details (delay : ℚ)
    (outcomes : Nat → Outcome (Option StoreRecord)) :
    Option StoreRecord × List (List ℚ) :=
  let r := retryLoop outcomes 3 3 0 delay []
  match r.1 with
  | some (some rec) => (some rec, r.2)
  | some none => (none, r.2)
  | none => (none, r.2)

/-- Row of the stores table (schema in _init_database, values as bound by
the INSERT OR REPLACE of _save_store_to_db).  Truthiness-tested payload
fields are stored as 1 or 0; raw_json carries the full decoded payload
(json.dumps is injective on it). -/
structure StoreRow where
  store_id : String
  domain : String
  purl : String
  name : Option String
  label : Option String
  country : Option String
  url : Option String
  logo_url : Option String
  active : Nat
  supported : Nat
  support_stage : Option String
  created : Option Int
  updated : Option Int
  checked : Option Int
  score : Option Int
  shoppers_24h : Option Int
  shoppers_30d : Option Int
  shoppers_change : Option Int
  num_savings_24h : Option Int
  num_savings_30d : Option Int
  avg_savings_24h : Option ℚ
  avg_savings_30d : Option ℚ
  metadata : Option String
  affiliate_url : Option String
  affiliate_restrictions : Option String
  ugc_allowed : Nat
  free_shipping_threshold : Option ℚ
  force_js_redirect : Nat
  launchpad_pathname : Option String
  raw_json : StoreRecord
deriving DecidableEq, Repr

/-- Row of the coupons table as bound by the INSERT of _save_store_to_db
(the AUTOINCREMENT id column is implicit in the list position). -/
structure CouponRow where
  store_id : String
  code : Option String
  deal_id : Option String
  description : Option String
  created : Option Int
  expires : Option Int
  exclusive : Nat
  hidden : Nat
  restrictions : Option String
  rank : Option Int
  applied_acc_count : Option Int
  applied_acc_last_ts : Option Int
  applied_acc_last_discount : Option ℚ
  url : Option String
  meta_json : String
  sources_json : String
  tags_json : String
deriving DecidableEq, Repr

/-- Row of the partial_urls table as bound by the INSERT of
_save_store_to_db. -/
structure PUrlRow where
  store_id : String
  domain : Option String
  purl : Option String
deriving DecidableEq, Repr

/-- Row of the scraped_domains table as written by _mark_domain_scraped.
The scraped_at wall-clock column is abstracted away. -/
structure ScrapedDomainRow where
  domain : String
  store_count : Nat
deriving DecidableEq, Repr

/-- The SQLite database honey_stores.db, restricted to the four tables the
crawl engine touches (the coupon_usage_reports table is only written by the
dashboard endpoints, outside the crawl engine). -/
structure DB where
  stores : List StoreRow
  coupons : List CouponRow
  purls : List PUrlRow
  scraped_domains : List ScrapedDomainRow
deriving DecidableEq, Repr

/-- A freshly initialized database: _init_database creates empty tables. -/
def emptyDB : DB := ⟨[], [], [], []⟩

/-- HoneyScraper._store_exists: SELECT 1 FROM stores WHERE store_id = ?. -/
def store_exists (db : DB) (sid : String) : Bool :=
  db.stores.any (fun r => r.store_id == sid)

/-- HoneyScraper._domain_scraped: SELECT 1 FROM scraped_domains WHERE
domain = ?. -/
def domain_scraped (db : DB) (d : String) : Bool :=
  db.scraped_domains.any (fun r => r.domain == d)

/-- HoneyScraper._mark_domain_scraped: INSERT OR REPLACE INTO
scraped_domains keyed by the domain primary key. -/
def mark_domain_scraped (db : DB) (d : String) (c : Nat) : DB :=
  { db with scraped_domains :=
      db.scraped_domains.filter (fun r => !(r.domain == d)) ++ [⟨d, c⟩] }

/-- Store row built by the INSERT OR REPLACE of _save_store_to_db from the
decoded detail payload. -/
def mkStoreRow (domain sid purl : String) (details : StoreRecord) : StoreRow :=
  { store_id := sid
    domain := domain
    purl := purl
    name := details.name
    label := details.label
    country := details.country
    url := details.url
    logo_url := details.logoUrl
    active := if details.active then 1 else 0
    supported := if details.supported then 1 else 0
    support_stage := details.supportStage
    created := details.created
    updated := details.updated
    checked := details.checked
    score := details.score
    shoppers_24h := details.shoppers24h
    shoppers_30d := details.shoppers30d
    shoppers_change := details.shoppersChange
    num_savings_24h := details.numSavings24h
    num_savings_30d := details.numSavings30d
    avg_savings_24h := details.avgSavings24h
    avg_savings_30d := details.avgSavings30d
    metadata := details.metadata
    affiliate_url := details.affiliateURL
    affiliate_restrictions := details.affiliateRestrictions
    ugc_allowed := if details.ugcAllowed then 1 else 0
    free_shipping_threshold := details.freeShippingThreshold
    force_js_redirect := if details.forceJsRedirect then 1 else 0
    launchpad_pathname := details.launchpadPathname
    raw_json := details }

/-- Coupon row built by the coupon INSERT of _save_store_to_db. -/
def mkCouponRow (sid : String) (c : CouponRecord) : CouponRow :=
  { store_id := sid
    code := c.code
    deal_id := c.dealId
    description := c.description
    created := c.created
    expires := c.expires
    exclusive := if c.exclusive then 1 else 0
    hidden := if c.hidden then 1 else 0
    restrictions := c.restrictions
    rank := c.rank
    applied_acc_count := c.applied_acc_count
    applied_acc_last_ts := c.applied_acc_last_ts
    applied_acc_last_discount := c.applied_acc_last_discount
    url := c.url
    meta_json := c.meta
    sources_json := c.sources
    tags_json := c.tags }

/-- Partial-url row built by the partial_urls INSERT of _save_store_to_db. -/
def mkPUrlRow (sid : String) (pu : PUrlEntry) : PUrlRow :=
  { store_id := sid, domain := pu.domain, purl := pu.purl }

/-- HoneyScraper._save_store_to_db (scraper.py lines 321-392).  The whole
body runs inside one implicit SQLite transaction committed at the end: an
INSERT OR REPLACE of the store row keyed by store_id, then DELETE of the
coupon child rows for that store_id followed by INSERTs from
details.publicCoupons, then the same delete-then-insert for partial_urls
from details.partialUrls.  Any exception raised inside the transaction is
caught, the transaction is rolled back and only logged, so on failure the
database is unchanged and no exception propagates; the fail flag models
whether such an exception occurs during this save. -/
def save_store_to_db (db : DB) (domain sid purl : String)
    (details : StoreRecord) (fail : Bool) : DB :=
  if fail then db
  else
    { stores := db.stores.filter (fun r => !(r.store_id == sid)) ++
        [mkStoreRow domain sid purl details]
      coupons := db.coupons.filter (fun r => !(r.store_id == sid)) ++
        details.publicCoupons.map (mkCouponRow sid)
      purls := db.purls.filter (fun r => !(r.store_id == sid)) ++
        details.purls.map (mkPUrlRow sid)
      scraped_domains := db.scraped_domains }

/-- Validation performed by the /api/scraper/delay endpoint of
web_dashboard.py (api_scraper_delay, lines 343-370): a negative delay and a
delay above 10 seconds are rejected; every other rational value, zero
included, is accepted and becomes the new base delay. -/
def api_scraper_delay (delay : ℚ) : Option ℚ :=
  if delay < 0 then none
  else if delay > 10 then none
  else some delay

/-- Simulation environment for a crawl run: the decoded domain listing (an
empty list covers a failed or empty listing, which get_supported_domains
turns into an empty result), the per-domain attempt oracle of the mapping
lookup, the per-store attempt oracle of the detail lookup, whether the save
transaction for a given store raises, and the point (counted in reads of the
should_stop flag by the running crawl) from which an external observer has
requested a stop through the /api/scraper/stop endpoint. -/
structure Env where
  domains : List String
  mapOutcomes : String → Nat → Outcome (Option (List StoreMapping))
  detailOutcomes : String → Nat → Outcome (Option StoreRecord)
  saveFails : String → Bool
  externalStopAt : Option Nat

/-- The fields of the module-level scraper_state dictionary of
web_dashboard.py that the crawl engine reads or writes (started_at, mode and
delay are presentational or configuration fields with no control-flow role
inside a run). -/
structure ScraperState where
  running : Bool
  current_domain : Option String
  domains_processed : Nat
  total_domains : Nat
  stores_saved : Nat
  errors : Nat
  consecutive_errors : Nat
  last_error : Option String
  should_stop : Bool
deriving DecidableEq, Repr

/-- Observable actions of a run, in execution order: one mapFetch per call
of the mapping lookup (a network call), one detailFetch per call of the
detail lookup (a network call), one storeSave per attempted database save
(with its success flag), one markDomain per progress-marker write. -/
inductive Event where
  | mapFetch : String → Event
  | detailFetch : String → Event
  | storeSave : String → Bool → Event
  | markDomain : String → Nat → Event
deriving DecidableEq, Repr

/-- State threaded through one monitored crawl run: the database, the shared
scraper_state dictionary, the event log, the number of reads of the
should_stop flag performed so far (against which the external stop request
of the environment is timed), and the local counters processed, skipped and
errors of scrape_all_stores. -/
structure RunState where
  db : DB
  st : ScraperState
  events : List Event
  stopReads : Nat
  processed : Nat
  skipped : Nat
  errors : Nat
deriving Repr

/-- Value the running crawl observes for the external stop request at its
n-th read of should_stop. -/
def externalStopValue (env : Env) (n : Nat) : Bool :=
  match env.externalStopAt with
  | none => false
  | some t => decide (t ≤ n)

/-- One read of scraper_state should_stop by the crawl loop: the observed
value is the flag itself or a pending external stop request (the dashboard
stop endpoint writes the same flag from another thread; the model times that
write by the read counter). -/
def readStop (env : Env) (rs : RunState) : Bool × RunState :=
  (rs.st.should_stop || externalStopValue env rs.stopReads,
   { rs with stopReads := rs.stopReads + 1 })

/-- MonitoredScraper.get_store_ids_by_domain (web_dashboard.py lines
55-72): calls the base method and resets consecutive_errors on a truthy
(non-empty) result.  The except branch of the override, which would
increment consecutive_errors and raise should_stop at ten, is unreachable:
the base method catches every exception internally and returns a list, so
the embedding of the override contains only the live success-reset path. -/
def monitored_get_store_ids (env : Env) (delay : ℚ) (domain : String)
    (rs : RunState) : List StoreMapping × RunState :=
  let result := (get_store_ids_by_domain delay (env.mapOutcomes domain)).1
  let rs1 := { rs with events := rs.events ++ [Event.mapFetch domain] }
  if result = [] then (result, rs1)
  else (result, { rs1 with st := { rs1.st with consecutive_errors := 0 } })

/-- MonitoredScraper.get_store_details (web_dashboard.py lines 74-91):
calls the base method and resets consecutive_errors on a truthy result.  As
with the mapping override, the except branch is unreachable because the
base method never lets an exception escape. -/
def monitored_get_details (env : Env) (delay : ℚ) (sid : String)
    (rs : RunState) : Option StoreRecord × RunState :=
  let result := (get_store_details delay (env.detailOutcomes sid)).1
  let rs1 := { rs with events := rs.events ++ [Event.detailFetch sid] }
  match result with
  | some rec => (some rec, { rs1 with st := { rs1.st with consecutive_errors := 0 } })
  | none => (none, rs1)

/-- Helper applying _mark_domain_scraped to the run state and recording the
write in the event log. -/
def markRS (rs : RunState) (d : String) (c : Nat) : RunState :=
  { rs with db := mark_domain_scraped rs.db d c,
            events := rs.events ++ [Event.markDomain d c] }

/-- Inner loop of MonitoredScraper.scrape_all_stores over the store mappings
of one domain (web_dashboard.py lines 162-184).  Each iteration first reads
the stop flag (breaking the loop when it is set), then either counts an
already-stored mapping, or fetches the details and on a truthy result saves
the store (any save failure being contained inside _save_store_to_db) and
mirrors processed into stores_saved, otherwise increments the error
counters; domain_store_count (the cnt argument) grows on every completed
iteration.  Returns the final count and state. -/
def processMappings (env : Env) (delay : ℚ) (skip : Bool) (dom : String) :
    List StoreMapping → Nat → RunState → Nat × RunState
  | [], cnt, rs => (cnt, rs)
  | m :: rest, cnt, rs =>
    let s := readStop env rs
    if s.1 then (cnt, s.2)
    else
      let rs1 := s.2
      if skip && store_exists rs1.db m.storeId then
        processMappings env delay skip dom rest (cnt + 1) rs1
      else
        let dr := monitored_get_details env delay m.storeId rs1
        match dr.1 with
        | some rec =>
          let rs2 := dr.2
          let fail := env.saveFails m.storeId
          let rs3 := { rs2 with
            db := save_store_to_db rs2.db dom m.storeId m.purl rec fail,
            events := rs2.events ++ [Event.storeSave m.storeId (!fail)],
            processed := rs2.processed + 1 }
          let rs4 := { rs3 with st := { rs3.st with stores_saved := rs3.processed } }
          processMappings env delay skip dom rest (cnt + 1) rs4
        | none =>
          let rs2 := dr.2
          let rs3 := { rs2 with errors := rs2.errors + 1 }
          let rs4 := { rs3 with st := { rs3.st with errors := rs3.errors } }
          processMappings env delay skip dom rest (cnt + 1) rs4

/-- Body of one iteration of the domain loop of
MonitoredScraper.scrape_all_stores (web_dashboard.py lines 141-192), after
the loop-top stop check: publish the current domain and its index, skip the
domain when resuming and it is already marked, otherwise resolve its store
mappings; an empty mapping list marks the domain with count zero, otherwise
the inner loop runs, the domain is marked with the resulting count and the
stop flag is read once more (lines 190-192).  The boolean result tells
whether the loop continues with the next domain. -/
def stepDomain (env : Env) (delay : ℚ) (skip : Bool) (d : String) (i : Nat)
    (rs : RunState) : RunState × Bool :=
  let rs0 := { rs with st := { rs.st with current_domain := some d, domains_processed := i } }
  if skip && domain_scraped rs0.db d then
    ({ rs0 with skipped := rs0.skipped + 1 }, true)
  else
    let mr := monitored_get_store_ids env delay d rs0
    if mr.1 = [] then (markRS mr.2 d 0, true)
    else
      let pr := processMappings env delay skip d mr.1 0 mr.2
      let rs2 := markRS pr.2 d pr.1
      let s := readStop env rs2
      (s.2, !s.1)

/-- Domain loop of MonitoredScraper.scrape_all_stores (web_dashboard.py
lines 135-192): per domain, read the stop flag and break when set, then run
the domain body and continue unless it requested a break.  The index i is
the 1-based enumeration counter of the Python loop. -/
def processDomains (env : Env) (delay : ℚ) (skip : Bool) :
    List String → Nat → RunState → RunState
  | [], _, rs => rs
  | d :: rest, i, rs =>
    let s := readStop env rs
    if s.1 then s.2
    else
      let st := stepDomain env delay skip d i s.2
      if st.2 then processDomains env delay skip rest (i + 1) st.1 else st.1

/-- The finally block of MonitoredScraper.scrape_all_stores (web_dashboard.py
lines 205-208), executed on every exit path of the run. -/
def finalizeRun (rs : RunState) : RunState :=
  { rs with st := { rs.st with running := false, current_domain := none, should_stop := false } }

/-- Field updates performed at the top of MonitoredScraper.scrape_all_stores
(web_dashboard.py lines 95-100); started_at and mode are presentational and
not carried by the model. -/
def startState (st : ScraperState) : ScraperState :=
  { st with running := true, should_stop := false, consecutive_errors := 0, last_error := none }

/-- MonitoredScraper.scrape_all_stores (web_dashboard.py lines 93-208).
The run starts from the scraper_state left by earlier runs (st) and the
current database (db).  An empty domain listing records an error and ends
the run; max_domains truncates the listing only when it is a truthy value
(so some 0 does not truncate, mirroring the Python truthiness test); when
resuming, a listing whose selected domains are all already marked records
an error and ends the run; otherwise the domain loop runs from index 1.
Every exit path passes through the finally block. -/
def scrape_all_stores_monitored (env : Env) (delay : ℚ)
    (max_domains : Option Nat) (skip_existing : Bool)
    (db : DB) (st : ScraperState) : RunState :=
  let rs0 : RunState :=
    { db := db, st := startState st, events := [], stopReads := 0,
      processed := 0, skipped := 0, errors := 0 }
  if env.domains = [] then
    finalizeRun { rs0 with st := { rs0.st with
      last_error := some "No domains found in domains list" } }
  else
    let domains :=
      match max_domains with
      | some k => if k = 0 then env.domains else env.domains.take k
      | none => env.domains
    let already := (domains.filter (fun d => domain_scraped db d)).length
    if skip_existing && decide (already = domains.length) then
      finalizeRun { rs0 with st := { rs0.st with
        last_error := some "All selected domains already scraped" } }
    else
      let rs1 := { rs0 with st := { rs0.st with total_domains := domains.length } }
      finalizeRun (processDomains env delay skip_existing domains 1 rs1)

/-- State threaded through one run of the base HoneyScraper.scrape_all_stores
(scraper.py): the database, the event log and the local counters processed,
skipped and errors.  The base scraper has no shared state dictionary and no
stop flag. -/
structure BaseRun where
  db : DB
  events : List Event
  processed : Nat
  skipped : Nat
  errors : Nat
deriving Repr

/-- Inner loop of HoneyScraper.scrape_all_stores over the store mappings of
one domain (scraper.py lines 596-616).  Unlike the dashboard variant there
is no stop check, and domain_store_count (the cnt argument) grows only for
mappings that are skipped as already stored or whose details are fetched
and saved; a falsy detail result only increments the error counter. -/
def processMappingsBase (env : Env) (delay : ℚ) (skip : Bool) (dom : String) :
    List StoreMapping → Nat → BaseRun → Nat × BaseRun
  | [], cnt, bs => (cnt, bs)
  | m :: rest, cnt, bs =>
    if skip && store_exists bs.db m.storeId then
      processMappingsBase env delay skip dom rest (cnt + 1) bs
    else
      let det := (get_store_details delay (env.detailOutcomes m.storeId)).1
      let bs1 := { bs with events := bs.events ++ [Event.detailFetch m.storeId] }
      match det with
      | some rec =>
        let fail := env.saveFails m.storeId
        let bs2 := { bs1 with
          db := save_store_to_db bs1.db dom m.storeId m.purl rec fail,
          events := bs1.events ++ [Event.storeSave m.storeId (!fail)],
          processed := bs1.processed + 1 }
        processMappingsBase env delay skip dom rest (cnt + 1) bs2
      | none =>
        processMappingsBase env delay skip dom rest cnt
          { bs1 with errors := bs1.errors + 1 }

/-- Helper applying _mark_domain_scraped to the base run state and recording
the write in the event log. -/
def markBS (bs : BaseRun) (d : String) (c : Nat) : BaseRun :=
  { bs with db := mark_domain_scraped bs.db d c,
            events := bs.events ++ [Event.markDomain d c] }

/-- Body of one iteration of the domain loop of
HoneyScraper.scrape_all_stores (scraper.py lines 574-619): skip the domain
when resuming and it is already marked, otherwise resolve its store
mappings; an empty mapping list marks the domain with count zero, otherwise
the inner loop runs and the domain is marked with the resulting count. -/
def stepDomainBase (env : Env) (delay : ℚ) (skip : Bool) (bs : BaseRun)
    (d : String) : BaseRun :=
  if skip && domain_scraped bs.db d then { bs with skipped := bs.skipped + 1 }
  else
    let ms := (get_store_ids_by_domain delay (env.mapOutcomes d)).1
    let bs1 := { bs with events := bs.events ++ [Event.mapFetch d] }
    if ms = [] then markBS bs1 d 0
    else
      let pr := processMappingsBase env delay skip d ms 0 bs1
      markBS pr.2 d pr.1

/-- Domain loop of HoneyScraper.scrape_all_stores: a plain left fold, the
base scraper having no stop signal. -/
def processDomainsBase (env : Env) (delay : ℚ) (skip : Bool)
    (ds : List String) (bs : BaseRun) : BaseRun :=
  ds.foldl (stepDomainBase env delay skip) bs

/-- HoneyScraper.scrape_all_stores (scraper.py lines 548-635).  An empty
domain listing ends the run at once; max_domains truncates the listing only
when truthy; then the domain loop runs over the selected domains. -/
def scrape_all_stores_base (env : Env) (delay : ℚ)
    (max_domains : Option Nat) (skip_existing : Bool) (db : DB) : BaseRun :=
  let bs0 : BaseRun := { db := db, events := [], processed := 0, skipped := 0, errors := 0 }
  if env.domains = [] then bs0
  else
    let domains :=
      match max_domains with
      | some k => if k = 0 then env.domains else env.domains.take k
      | none => env.domains
    processDomainsBase env delay skip_existing domains bs0

/-- Initial value of the module-level scraper_state dictionary
(web_dashboard.py lines 22-35), restricted to the fields the model carries. -/
def scraper_state0 : ScraperState :=
  { running := false, current_domain := none, domains_processed := 0,
    total_domains := 0, stores_saved := 0, errors := 0,
    consecutive_errors := 0, last_error := none, should_stop := false }

/-- Store detail payload with every optional field absent, used as a small
concrete payload in run scenarios. -/
def sampleRecord : StoreRecord :=
  { name := some "S", label := none, country := none, url := none,
    logoUrl := none, active := true, supported := true, supportStage := none,
    created := none, updated := none, checked := none, score := none,
    shoppers24h := none, shoppers30d := none, shoppersChange := none,
    numSavings24h := none, numSavings30d := none, avgSavings24h := none,
    avgSavings30d := none, metadata := none, affiliateURL := none,
    affiliateRestrictions := none, ugcAllowed := false,
    freeShippingThreshold := none, forceJsRedirect := false,
    launchpadPathname := none, publicCoupons := [], purls := [] }

/-- Environment in which every mapping-lookup attempt of every domain times
out, over eleven domains: eleven consecutive failing network-facing
sub-operations in one run. -/
def envAllTimeouts : Env :=
  { domains := ["a", "b", "c", "d", "e", "f", "g", "h", "i", "j", "k"],
    mapOutcomes := fun _ _ => Outcome.timeout,
    detailOutcomes := fun _ _ => Outcome.timeout,
    saveFails := fun _ => false,
    externalStopAt := none }

/-- Environment with one domain resolving to two stores, with all fetches
succeeding at the first attempt, in which the external observer requests a
stop just before the crawl reads the stop flag for the third time, that is
between the first and the second store mapping of the domain. -/
def envStopMidDomain : Env :=
  { domains := ["a"],
    mapOutcomes := fun _ _ => Outcome.success (some [⟨"s", "u"⟩, ⟨"t", "v"⟩]),
    detailOutcomes := fun _ _ => Outcome.success (some sampleRecord),
    saveFails := fun _ => false,
    externalStopAt := some 2 }

/-- Environment with one domain resolving to one store whose detail fetch
succeeds but whose database save raises inside the transaction. -/
def envSaveFails : Env :=
  { domains := ["a"],
    mapOutcomes := fun _ _ => Outcome.success (some [⟨"s", "u"⟩]),
    detailOutcomes := fun _ _ => Outcome.success (some sampleRecord),
    saveFails := fun sid => sid == "s",
    externalStopAt := none }

/-- Environment with one domain resolving to one store whose every
detail-fetch attempt times out. -/
def envDetailFails : Env :=
  { domains := ["a"],
    mapOutcomes := fun _ _ => Outcome.success (some [⟨"s", "u"⟩]),
    detailOutcomes := fun _ _ => Outcome.timeout,
    saveFails := fun _ => false,
    externalStopAt := none }

/-- Attempt oracle delivering n consecutive HTTP 429 responses followed by
successes with payload b. -/
def afterRateLimits {β : Type} (n : Nat) (b : β) : Nat → Outcome β :=
  fun i => if i < n then Outcome.http429 else Outcome.success b

/-- Property of an attempt outcome of being one of the three cases the retry
loop retries on: rate limiting, timeout, or another request error. -/
def Outcome.retriable {β : Type} (x : Outcome β) : Prop :=
  x = Outcome.http429 ∨ x = Outcome.timeout ∨ x = Outcome.reqError

/-- Two-domain environment with deterministic transport: domain a resolves
to one store, domain b returns a 2xx body without the expected path; all
detail fetches succeed; no save fails; no external stop is requested. -/
def envResume : Env :=
  { domains := ["a", "b"],
    mapOutcomes := fun d _ =>
      if d = "a" then Outcome.success (some [⟨"s", "u"⟩]) else Outcome.success none,
    detailOutcomes := fun _ _ => Outcome.success (some sampleRecord),
    saveFails := fun _ => false,
    externalStopAt := none }

/-- Run state at the start of a fresh monitored crawl over an empty
database. -/
def runState0 : RunState :=
  { db := emptyDB, st := scraper_state0, events := [], stopReads := 0,
    processed := 0, skipped := 0, errors := 0 }

/-- Run state at the start of a fresh base crawl over an empty database. -/
def baseRun0 : BaseRun :=
  { db := emptyDB, events := [], processed := 0, skipped := 0, errors := 0 }

theorem filter_not_filter {α : Type} (p : α → Bool) (l : List α) :
    (l.filter (fun a => !(p a))).filter p = [] := by
  induction l with
  | nil => rfl
  | cons a l ih =>
    by_cases h : p a = true <;> simp [List.filter_cons, h, ih]

/-- C7: saving two payloads for the same store identifier in sequence leaves exactly one store row for that identifier, built from the second payload, and the coupon and partial-url rows for that identifier are exactly those of the most recently saved payload, with no duplicates and no leftovers from the earlier save. -/
theorem c7_double_save_last_write_wins (db : DB) (dom1 dom2 sid pu1 pu2 : String) (d1 d2 : StoreRecord) :
    ((save_store_to_db (save_store_to_db db dom1 sid pu1 d1 false) dom2 sid pu2 d2
        false).stores.filter (fun r => r.store_id == sid)) =
      [mkStoreRow dom2 sid pu2 d2] ∧
    ((save_store_to_db (save_store_to_db db dom1 sid pu1 d1 false) dom2 sid pu2 d2
        false).coupons.filter (fun r => r.store_id == sid)) =
      d2.publicCoupons.map (mkCouponRow sid) ∧
    ((save_store_to_db (save_store_to_db db dom1 sid pu1 d1 false) dom2 sid pu2 d2
        false).purls.filter (fun r => r.store_id == sid)) =
      d2.purls.map (mkPUrlRow sid) := by
  refine ⟨?_, ?_, ?_⟩ <;>
    simp [save_store_to_db, List.filter_append, filter_not_filter, mkStoreRow,
      List.filter_map, Function.comp, List.filter_eq_self]
  · congr 1
    apply List.filter_eq_self.mpr
    intro a _
    simp [Function.comp, mkCouponRow]
  · congr 1
    apply List.filter_eq_self.mpr
    intro a _
    simp [Function.comp, mkPUrlRow]

theorem retryLoop_none_of_no_success {β : Type} (o : Nat → Outcome β) (mr : Nat) :
    ∀ (fuel attempt : Nat) (d : ℚ) (log : List (List ℚ)),
      (∀ i, attempt ≤ i → i < attempt + fuel → (o i).isSuccess = false) →
      (retryLoop o mr fuel attempt d log).1 = none := by
  intro fuel
  induction fuel with
  | zero => intro attempt d log _; rfl
  | succ n ih =>
    intro attempt d log h
    have ha : (o attempt).isSuccess = false := h attempt le_rfl (by omega)
    have hrest : ∀ i, attempt + 1 ≤ i → i < attempt + 1 + n → (o i).isSuccess = false := by
      intro i h1 h2; exact h i (by omega) (by omega)
    rcases ho : o attempt with _ | _ | _ | _ | b
    · simp [retryLoop, ho, ih (attempt + 1) _ _ hrest]
    · by_cases hlt : attempt < mr - 1 <;>
        simp [retryLoop, ho, hlt, ih (attempt + 1) _ _ hrest]
    · by_cases hlt : attempt < mr - 1 <;>
        simp [retryLoop, ho, hlt, ih (attempt + 1) _ _ hrest]
    · simp [retryLoop, ho]
    · rw [ho] at ha; simp [Outcome.isSuccess] at ha

theorem retryLoop_none_of_unexpected {β : Type} (o : Nat → Outcome β) (mr : Nat) :
    ∀ (fuel attempt : Nat) (d : ℚ) (log : List (List ℚ)) (j : Nat),
      attempt ≤ j → j < attempt + fuel → o j = Outcome.unexpected →
      (∀ i, attempt ≤ i → i < j → (o i).isSuccess = false) →
      (retryLoop o mr fuel attempt d log).1 = none := by
  intro fuel
  induction fuel with
  | zero => intro attempt d log j h1 h2 _ _; omega
  | succ n ih =>
    intro attempt d log j h1 h2 hj h
    rcases eq_or_lt_of_le h1 with heq | hlt
    · subst heq
      simp [retryLoop, hj]
    · have ha : (o attempt).isSuccess = false := h attempt le_rfl hlt
      have hrest : ∀ i, attempt + 1 ≤ i → i < j → (o i).isSuccess = false := by
        intro i ha1 ha2; exact h i (by omega) ha2
      rcases ho : o attempt with _ | _ | _ | _ | b
      · simp [retryLoop, ho, ih (attempt + 1) _ _ j (by omega) (by omega) hj hrest]
      · by_cases hl : attempt < mr - 1 <;>
          simp [retryLoop, ho, hl, ih (attempt + 1) _ _ j (by omega) (by omega) hj hrest]
      · by_cases hl : attempt < mr - 1 <;>
          simp [retryLoop, ho, hl, ih (attempt + 1) _ _ j (by omega) (by omega) hj hrest]
      · simp [retryLoop, ho]
      · rw [ho] at ha; simp [Outcome.isSuccess] at ha

/-- C4: the wrapped lookups are total functions of the transport oracle, so no exception passes their boundary; when no attempt among the three succeeds, and likewise when an unexpected failure is hit with no earlier success, the mapping lookup returns the empty list and the detail lookup returns the absent value. -/
theorem c4_failures_never_escape (delay : ℚ) (o1 : Nat → Outcome (Option (List StoreMapping)))
    (o2 : Nat → Outcome (Option StoreRecord)) :
    ((∀ i, i < 3 → (o1 i).isSuccess = false) →
      (get_store_ids_by_domain delay o1).1 = []) ∧
    ((∀ i, i < 3 → (o2 i).isSuccess = false) →
      (get_store_details delay o2).1 = none) ∧
    (∀ j, j < 3 → o1 j = Outcome.unexpected →
      (∀ i, i < j → (o1 i).isSuccess = false) →
      (get_store_ids_by_domain delay o1).1 = []) ∧
    (∀ j, j < 3 → o2 j = Outcome.unexpected →
      (∀ i, i < j → (o2 i).isSuccess = false) →
      (get_store_details delay o2).1 = none) := by
  refine ⟨fun h => ?_, fun h => ?_, fun j hj hu h => ?_, fun j hj hu h => ?_⟩
  · have := retryLoop_none_of_no_success o1 3 3 0 delay []
      (fun i _ h2 => h i (by omega))
    simp [get_store_ids_by_domain, this]
  · have := retryLoop_none_of_no_success o2 3 3 0 delay []
      (fun i _ h2 => h i (by omega))
    simp [get_store_details, this]
  · have := retryLoop_none_of_unexpected o1 3 3 0 delay [] j (by omega) (by omega)
      hu (fun i _ h2 => h i h2)
    simp [get_store_ids_by_domain, this]
  · have := retryLoop_none_of_unexpected o2 3 3 0 delay [] j (by omega) (by omega)
      hu (fun i _ h2 => h i h2)
    simp [get_store_details, this]

/-- Witness for c4_failures_never_escape on all-timeout and immediately-unexpected oracles. -/
theorem c4_failures_witness :
    (get_store_ids_by_domain 0 (fun _ => Outcome.timeout)).1 = [] ∧
    (get_store_details 0 (fun _ => Outcome.timeout)).1 = none ∧
    (get_store_ids_by_domain 0 (fun _ => Outcome.unexpected)).1 = [] ∧
    (get_store_details 0 (fun _ => Outcome.unexpected)).1 = none :=
  ⟨(c4_failures_never_escape 0 (fun _ => Outcome.timeout) (fun _ => Outcome.timeout)).1 (by decide),
   (c4_failures_never_escape 0 (fun _ => Outcome.timeout) (fun _ => Outcome.timeout)).2.1 (by decide),
   (c4_failures_never_escape 0 (fun _ => Outcome.unexpected) (fun _ => Outcome.timeout)).2.2.1 0
     (by decide) rfl (by omega),
   (c4_failures_never_escape 0 (fun _ => Outcome.timeout) (fun _ => Outcome.unexpected)).2.2.2 0
     (by decide) rfl (by omega)⟩

theorem retryLoop_success_at {β : Type} (o : Nat → Outcome β) (mr : Nat) (b : β) :
    ∀ (fuel attempt j : Nat) (d : ℚ) (log : List (List ℚ)),
      j < fuel → o (attempt + j) = Outcome.success b →
      (∀ i, attempt ≤ i → i < attempt + j → (o i).retriable) →
      ∃ tail, retryLoop o mr fuel attempt d log = (some b, log ++ tail) ∧
        tail.length = j + 1 := by
  intro fuel
  induction fuel with
  | zero => intro attempt j d log h; omega
  | succ n ih =>
    intro attempt j d log hj hs hr
    match j with
    | 0 =>
      rw [Nat.add_zero] at hs
      exact ⟨[[d]], by simp [retryLoop, hs], rfl⟩
    | j + 1 =>
      have ha : (o attempt).retriable := hr attempt le_rfl (by omega)
      have hs' : o (attempt + 1 + j) = Outcome.success b := by
        rw [show attempt + 1 + j = attempt + (j + 1) by omega]; exact hs
      have hr' : ∀ i, attempt + 1 ≤ i → i < attempt + 1 + j → (o i).retriable := by
        intro i h1 h2; exact hr i (by omega) (by omega)
      rcases ha with ho | ho | ho
      · obtain ⟨tail, he, hl⟩ := ih (attempt + 1) j (d * 2) (log ++ [[d, d * 2]])
          (by omega) hs' hr'
        exact ⟨[d, d * 2] :: tail, by simp [retryLoop, ho, he], by simp [hl]⟩
      · by_cases hlt : attempt < mr - 1
        · obtain ⟨tail, he, hl⟩ := ih (attempt + 1) j (d * (3/2)) (log ++ [[d, d * (3/2)]])
            (by omega) hs' hr'
          exact ⟨[d, d * (3/2)] :: tail, by simp [retryLoop, ho, hlt, he], by simp [hl]⟩
        · obtain ⟨tail, he, hl⟩ := ih (attempt + 1) j (d * (3/2)) (log ++ [[d]])
            (by omega) hs' hr'
          exact ⟨[d] :: tail, by simp [retryLoop, ho, hlt, he], by simp [hl]⟩
      · by_cases hlt : attempt < mr - 1
        · obtain ⟨tail, he, hl⟩ := ih (attempt + 1) j (d * (3/2)) (log ++ [[d, d * (3/2)]])
            (by omega) hs' hr'
          exact ⟨[d, d * (3/2)] :: tail, by simp [retryLoop, ho, hlt, he], by simp [hl]⟩
        · obtain ⟨tail, he, hl⟩ := ih (attempt + 1) j (d * (3/2)) (log ++ [[d]])
            (by omega) hs' hr'
          exact ⟨[d] :: tail, by simp [retryLoop, ho, hlt, he], by simp [hl]⟩

/-- C10: a 2xx response whose JSON body lacks the expected response path makes the lookup return the empty list respectively the absent value within that same iteration, consuming no further attempts (the sleep log holds exactly j+1 iteration entries when the miss happens at attempt j), and at the boundary the result coincides with the one of a call whose every attempt times out. -/
theorem c10_missing_path_immediate_empty (delay : ℚ) (o1 : Nat → Outcome (Option (List StoreMapping)))
    (o2 : Nat → Outcome (Option StoreRecord)) (j1 j2 : Nat) :
    (j1 < 3 → o1 j1 = Outcome.success none →
      (∀ i, i < j1 → (o1 i).retriable) →
      (get_store_ids_by_domain delay o1).1 = [] ∧
      (get_store_ids_by_domain delay o1).2.length = j1 + 1 ∧
      (get_store_ids_by_domain delay o1).1 =
        (get_store_ids_by_domain delay (fun _ => Outcome.timeout)).1) ∧
    (j2 < 3 → o2 j2 = Outcome.success none →
      (∀ i, i < j2 → (o2 i).retriable) →
      (get_store_details delay o2).1 = none ∧
      (get_store_details delay o2).2.length = j2 + 1 ∧
      (get_store_details delay o2).1 =
        (get_store_details delay (fun _ => Outcome.timeout)).1) := by
  constructor
  · intro hj hs hr
    obtain ⟨tail, he, hl⟩ := retryLoop_success_at o1 3 none 3 0 j1 delay [] hj
      (by simpa using hs) (fun i _ h2 => hr i (by omega))
    have hnone : (retryLoop (fun _ => Outcome.timeout) 3 3 0 delay
        ([] : List (List ℚ))).1 = (none : Option (Option (List StoreMapping))) :=
      retryLoop_none_of_no_success _ 3 3 0 delay [] (fun i _ _ => rfl)
    simp [get_store_ids_by_domain, he, hl, hnone]
  · intro hj hs hr
    obtain ⟨tail, he, hl⟩ := retryLoop_success_at o2 3 none 3 0 j2 delay [] hj
      (by simpa using hs) (fun i _ h2 => hr i (by omega))
    have hnone : (retryLoop (fun _ => Outcome.timeout) 3 3 0 delay
        ([] : List (List ℚ))).1 = (none : Option (Option StoreRecord)) :=
      retryLoop_none_of_no_success _ 3 3 0 delay [] (fun i _ _ => rfl)
    simp [get_store_details, he, hl, hnone]

/-- Witness for c10_missing_path_immediate_empty with the miss on the first attempt. -/
theorem c10_missing_path_witness :
    (get_store_ids_by_domain 1 (fun _ => Outcome.success none)).1 = [] ∧
    (get_store_ids_by_domain 1 (fun _ => Outcome.success none)).2.length = 1 ∧
    (get_store_details 1 (fun _ => Outcome.success none)).1 = none ∧
    (get_store_details 1 (fun _ => Outcome.success none)).2.length = 1 := by
  have h1 := (c10_missing_path_immediate_empty 1 (fun _ => Outcome.success none)
      (fun _ => Outcome.success none) 0 0).1 (by omega) rfl (by omega)
  have h2 := (c10_missing_path_immediate_empty 1 (fun _ => Outcome.success none)
      (fun _ => Outcome.success none) 0 0).2 (by omega) rfl (by omega)
  exact ⟨h1.1, h1.2.1, h2.1, h2.2.1⟩

theorem retryLoop_zero_delay {β : Type} (o : Nat → Outcome β) (mr : Nat) :
    ∀ (fuel attempt : Nat) (d : ℚ) (log : List (List ℚ)), d = 0 →
      (∀ l ∈ log, ∀ q ∈ l, q = 0) →
      ∀ l ∈ (retryLoop o mr fuel attempt d log).2, ∀ q ∈ l, q = 0 := by
  intro fuel
  induction fuel with
  | zero => intro attempt d log _ hlog; exact hlog
  | succ n ih =>
    intro attempt d log hd hlog
    subst hd
    have hz2 : (0 : ℚ) * 2 = 0 := by ring
    have hz32 : (0 : ℚ) * (3/2) = 0 := by ring
    have hgrow : ∀ x : List ℚ, (∀ q ∈ x, q = 0) →
        ∀ l ∈ log ++ [x], ∀ q ∈ l, q = 0 := by
      intro x hx l hl
      rcases List.mem_append.mp hl with h | h
      · exact hlog l h
      · simp at h; subst h; exact hx
    rcases ho : o attempt with _ | _ | _ | _ | b
    · simp only [retryLoop, ho]
      exact ih (attempt + 1) _ _ hz2 (hgrow _ (by simp [hz2]))
    · by_cases hlt : attempt < mr - 1 <;> simp only [retryLoop, ho, hlt, if_true, if_false] <;>
        exact ih (attempt + 1) _ _ hz32 (hgrow _ (by simp [hz32]))
    · by_cases hlt : attempt < mr - 1 <;> simp only [retryLoop, ho, hlt, if_true, if_false] <;>
        exact ih (attempt + 1) _ _ hz32 (hgrow _ (by simp [hz32]))
    · simp only [retryLoop, ho]
      exact hgrow _ (by simp)
    · simp only [retryLoop, ho]
      exact hgrow _ (by simp)

theorem gsibd_log_eq (delay : ℚ) (o : Nat → Outcome (Option (List StoreMapping))) :
    (get_store_ids_by_domain delay o).2 = (retryLoop o 3 3 0 delay []).2 := by
  unfold get_store_ids_by_domain
  rcases h : (retryLoop o 3 3 0 delay []).1 with _ | (_ | ms) <;> simp [h]

theorem gsd_log_eq (delay : ℚ) (o : Nat → Outcome (Option StoreRecord)) :
    (get_store_details delay o).2 = (retryLoop o 3 3 0 delay []).2 := by
  unfold get_store_details
  rcases h : (retryLoop o 3 3 0 delay []).1 with _ | (_ | rec) <;> simp [h]

/-- C9: the delay endpoint accepts the value 0 exactly, and with base delay 0 every sleep recorded by either wrapped lookup is 0 for every transport oracle: doubling on 429 and the 3/2 multiplier on transient errors both map 0 to 0, so the pacing floor and the whole backoff escalation are inert. -/
theorem c9_zero_delay_inert :
    api_scraper_delay 0 = some 0 ∧
    (∀ (o : Nat → Outcome (Option (List StoreMapping))),
      ∀ l ∈ (get_store_ids_by_domain 0 o).2, ∀ q ∈ l, q = 0) ∧
    (∀ (o : Nat → Outcome (Option StoreRecord)),
      ∀ l ∈ (get_store_details 0 o).2, ∀ q ∈ l, q = 0) := by
  refine ⟨by simp [api_scraper_delay], fun o l hl => ?_, fun o l hl => ?_⟩
  · rw [gsibd_log_eq] at hl
    exact retryLoop_zero_delay o 3 3 0 0 [] rfl (by simp) l hl
  · rw [gsd_log_eq] at hl
    exact retryLoop_zero_delay o 3 3 0 0 [] rfl (by simp) l hl

/-- Witness for c9_zero_delay_inert on a first-attempt success oracle. -/
theorem c9_zero_delay_witness :
    api_scraper_delay 0 = some 0 ∧ (0 : ℚ) = 0 :=
  ⟨c9_zero_delay_inert.1,
   c9_zero_delay_inert.2.1 (fun _ => Outcome.success none) [0] (by decide) 0 (by decide)⟩

/-- C8 counterexample: with base delay 1, one 429 followed by success sleeps 1 and 2 within the first attempt but only 2 in the second, so the per-attempt sleep totals are [3, 2], which is not strictly increasing. -/
theorem c8_attempt_sleep_not_increasing :
    ((get_store_ids_by_domain 1 (afterRateLimits 1 (some [⟨"s", "u"⟩]))).2.map
        (fun l => l.sum)) = [3, 2] ∧
    ¬ List.Chain' (fun a b => a < b)
      ((get_store_ids_by_domain 1 (afterRateLimits 1 (some [⟨"s", "u"⟩]))).2.map
        (fun l => l.sum)) := by
  have hmap : ((get_store_ids_by_domain 1 (afterRateLimits 1 (some [⟨"s", "u"⟩]))).2.map
      (fun l => l.sum)) = [3, 2] := by
    simp [get_store_ids_by_domain, retryLoop, afterRateLimits]
    norm_num
  refine ⟨hmap, fun h => ?_⟩
  rw [hmap] at h
  rw [List.chain'_cons] at h
  have : (3 : ℚ) < 2 := h.1
  norm_num at this

theorem retryLoop_pos_delay {β : Type} (o : Nat → Outcome β) (mr : Nat) :
    ∀ (fuel attempt : Nat) (d : ℚ) (log : List (List ℚ)), 0 < d →
      (∀ l ∈ log, ∀ q ∈ l, 0 < q) →
      ∀ l ∈ (retryLoop o mr fuel attempt d log).2, ∀ q ∈ l, 0 < q := by
  intro fuel
  induction fuel with
  | zero => intro attempt d log _ hlog; exact hlog
  | succ n ih =>
    intro attempt d log hd hlog
    have hd2 : 0 < d * 2 := by positivity
    have hd32 : 0 < d * (3/2) := by positivity
    have hgrow : ∀ x : List ℚ, (∀ q ∈ x, 0 < q) →
        ∀ l ∈ log ++ [x], ∀ q ∈ l, 0 < q := by
      intro x hx l hl
      rcases List.mem_append.mp hl with h | h
      · exact hlog l h
      · simp at h; subst h; exact hx
    rcases ho : o attempt with _ | _ | _ | _ | b
    · simp only [retryLoop, ho]
      refine ih (attempt + 1) _ _ hd2 (hgrow _ ?_)
      intro q hq; simp at hq; rcases hq with rfl | rfl <;> assumption
    · by_cases hlt : attempt < mr - 1 <;> simp only [retryLoop, ho, hlt, if_true, if_false]
      · refine ih (attempt + 1) _ _ hd32 (hgrow _ ?_)
        intro q hq; simp at hq; rcases hq with rfl | rfl <;> assumption
      · refine ih (attempt + 1) _ _ hd32 (hgrow _ ?_)
        intro q hq; simp at hq; subst hq; assumption
    · by_cases hlt : attempt < mr - 1 <;> simp only [retryLoop, ho, hlt, if_true, if_false]
      · refine ih (attempt + 1) _ _ hd32 (hgrow _ ?_)
        intro q hq; simp at hq; rcases hq with rfl | rfl <;> assumption
      · refine ih (attempt + 1) _ _ hd32 (hgrow _ ?_)
        intro q hq; simp at hq; subst hq; assumption
    · simp only [retryLoop, ho]
      refine hgrow _ ?_
      intro q hq; simp at hq; subst hq; assumption
    · simp only [retryLoop, ho]
      refine hgrow _ ?_
      intro q hq; simp at hq; subst hq; assumption

/-- C8 (amended): under n consecutive 429 responses each 429 doubles the delay and consumes one of the three bounded attempts (the sleep log is exactly the pair d*2^i, d*2^(i+1) for each 429 attempt followed by a single d*2^n on the succeeding attempt); the call succeeds exactly when the success falls within the three attempts, and n >= 3 yields the empty respectively absent result rather than an exception; with a positive base delay every recorded sleep is positive, so the cumulative sleep time is strictly increasing per attempt. -/
theorem c8_backoff_429_behavior (d : ℚ) (n : Nat) (ms : List StoreMapping) (rec : StoreRecord) :
    (n < 3 →
      (get_store_ids_by_domain d (afterRateLimits n (some ms))).1 = ms ∧
      (get_store_details d (afterRateLimits n (some rec))).1 = some rec ∧
      (get_store_ids_by_domain d (afterRateLimits n (some ms))).2 =
        (List.range n).map (fun i => [d * 2 ^ i, d * 2 ^ (i + 1)]) ++ [[d * 2 ^ n]]) ∧
    (3 ≤ n →
      (get_store_ids_by_domain d (afterRateLimits n (some ms))).1 = [] ∧
      (get_store_details d (afterRateLimits n (some rec))).1 = none) ∧
    (0 < d →
      ∀ l ∈ (get_store_ids_by_domain d (afterRateLimits n (some ms))).2,
        ∀ q ∈ l, 0 < q) := by
  refine ⟨fun hn => ?_, fun hn => ?_, fun hd l hl => ?_⟩
  · interval_cases n <;>
      · refine ⟨?_, ?_, ?_⟩ <;>
          simp [get_store_ids_by_domain, get_store_details, retryLoop, afterRateLimits,
            List.range_succ] <;>
          ring_nf
  · have h0 : afterRateLimits n (some ms) 0 = Outcome.http429 := by
      simp [afterRateLimits]; omega
    have h1 : afterRateLimits n (some ms) 1 = Outcome.http429 := by
      simp [afterRateLimits]; omega
    have h2 : afterRateLimits n (some ms) 2 = Outcome.http429 := by
      simp [afterRateLimits]; omega
    have h0' : afterRateLimits n (some rec) 0 = Outcome.http429 := by
      simp [afterRateLimits]; omega
    have h1' : afterRateLimits n (some rec) 1 = Outcome.http429 := by
      simp [afterRateLimits]; omega
    have h2' : afterRateLimits n (some rec) 2 = Outcome.http429 := by
      simp [afterRateLimits]; omega
    constructor
    · simp [get_store_ids_by_domain, retryLoop, h0, h1, h2]
    · simp [get_store_details, retryLoop, h0', h1', h2']
  · rw [gsibd_log_eq] at hl
    exact retryLoop_pos_delay _ 3 3 0 d [] hd (by simp) l hl

/-- Witness for c8_backoff_429_behavior at base delay 1 with one and with three 429 responses. -/
theorem c8_backoff_witness :
    (get_store_ids_by_domain 1 (afterRateLimits 1 (some [⟨"s", "u"⟩]))).1 =
      [⟨"s", "u"⟩] ∧
    (get_store_ids_by_domain 1 (afterRateLimits 3 (some [⟨"s", "u"⟩]))).1 = [] ∧
    (0 : ℚ) < 1 := by
  refine ⟨((c8_backoff_429_behavior 1 1 [⟨"s", "u"⟩] sampleRecord).1 (by omega)).1,
          ((c8_backoff_429_behavior 1 3 [⟨"s", "u"⟩] sampleRecord).2.1 (by omega)).1,
          ?_⟩
  have := (c8_backoff_429_behavior 1 1 [⟨"s", "u"⟩] sampleRecord).2.2 (by norm_num) [1, 2]
    (by simp [get_store_ids_by_domain, retryLoop, afterRateLimits]) 1 (by simp)
  exact this

/-- C1: refutation at the failing input: over eleven domains whose every mapping-fetch attempt times out (eleven consecutive failing network-facing sub-operations), the monitored run ends with the stop flag unset and the consecutive-error counter still zero, all eleven domains marked, and the eleventh domain fetched: the circuit breaker never trips, because the base fetch methods catch every exception and return empty results, leaving the counting branch of the override unreachable. -/
theorem c1_breaker_never_trips :
    (scrape_all_stores_monitored envAllTimeouts 0 none true emptyDB
      scraper_state0).st.should_stop = false ∧
    (scrape_all_stores_monitored envAllTimeouts 0 none true emptyDB
      scraper_state0).st.consecutive_errors = 0 ∧
    (scrape_all_stores_monitored envAllTimeouts 0 none true emptyDB
      scraper_state0).db.scraped_domains.length = 11 ∧
    Event.mapFetch "k" ∈
      (scrape_all_stores_monitored envAllTimeouts 0 none true emptyDB
        scraper_state0).events := by
  refine ⟨?_, ?_, ?_, ?_⟩ <;> decide

/-- C3 counterexample: in a run over one domain with two store mappings, where the external observer raises the stop signal between the two mappings, the run halts mid-domain yet still writes the progress marker for that domain with the partial count 1, and the detail fetch of the second mapping is never issued: a run stopped partway through a domain's mappings does not leave the domain unmarked. -/
theorem c3_stop_mid_domain_writes_marker :
    domain_scraped (scrape_all_stores_monitored envStopMidDomain 0 none true
      emptyDB scraper_state0).db "a" = true ∧
    Event.markDomain "a" 1 ∈
      (scrape_all_stores_monitored envStopMidDomain 0 none true emptyDB
        scraper_state0).events ∧
    Event.detailFetch "t" ∉
      (scrape_all_stores_monitored envStopMidDomain 0 none true emptyDB
        scraper_state0).events := by
  refine ⟨?_, ?_, ?_⟩ <;> decide

/-- C6 counterexample: in a run whose single store save raises inside the transaction, the transaction is rolled back (the stores table stays empty), yet the error counter remains 0 and stores_saved becomes 1: the save failure is not recorded as an error count. -/
theorem c6_save_failure_not_counted :
    (scrape_all_stores_monitored envSaveFails 0 none true emptyDB
      scraper_state0).db.stores = [] ∧
    (scrape_all_stores_monitored envSaveFails 0 none true emptyDB
      scraper_state0).st.errors = 0 ∧
    (scrape_all_stores_monitored envSaveFails 0 none true emptyDB
      scraper_state0).st.stores_saved = 1 ∧
    Event.storeSave "s" false ∈
      (scrape_all_stores_monitored envSaveFails 0 none true emptyDB
        scraper_state0).events := by
  refine ⟨?_, ?_, ?_, ?_⟩ <;> decide

/-- C5 counterexample: in the base controller of scraper.py, a domain with one store mapping whose detail fetch exhausts its retries is marked complete with store count 0 although one mapping was handled (its detail fetch was issued): the recorded count is not the count of mappings handled. -/
theorem c5_failed_fetch_not_in_count :
    (scrape_all_stores_base envDetailFails 0 none true emptyDB).db.scraped_domains =
      [⟨"a", 0⟩] ∧
    Event.detailFetch "s" ∈
      (scrape_all_stores_base envDetailFails 0 none true emptyDB).events := by
  refine ⟨?_, ?_⟩ <;> decide

theorem readStop_of_none (env : Env) (rs : RunState)
    (hstop : env.externalStopAt = none) (hss : rs.st.should_stop = false) :
    readStop env rs = (false, { rs with stopReads := rs.stopReads + 1 }) := by
  simp [readStop, externalStopValue, hstop, hss]

theorem processMappings_cons_stop (env : Env) (delay : ℚ) (skip : Bool) (dom : String)
    (m : StoreMapping) (rest : List StoreMapping) (cnt : Nat) (rs : RunState)
    (hstop : env.externalStopAt = none) (hss : rs.st.should_stop = false) :
    processMappings env delay skip dom (m :: rest) cnt rs =
      if skip && store_exists rs.db m.storeId then
        processMappings env delay skip dom rest (cnt + 1)
          { rs with stopReads := rs.stopReads + 1 }
      else
        match (get_store_details delay (env.detailOutcomes m.storeId)).1 with
        | some rec =>
          processMappings env delay skip dom rest (cnt + 1)
            { rs with
                stopReads := rs.stopReads + 1
                events := (rs.events ++ [Event.detailFetch m.storeId]) ++
                  [Event.storeSave m.storeId (!env.saveFails m.storeId)]
                processed := rs.processed + 1
                db := save_store_to_db rs.db dom m.storeId m.purl rec
                  (env.saveFails m.storeId)
                st := { rs.st with
                  consecutive_errors := 0
                  stores_saved := rs.processed + 1 } }
        | none =>
          processMappings env delay skip dom rest (cnt + 1)
            { rs with
                stopReads := rs.stopReads + 1
                events := rs.events ++ [Event.detailFetch m.storeId]
                errors := rs.errors + 1
                st := { rs.st with errors := rs.errors + 1 } } := by
  have hrs := readStop_of_none env rs hstop hss
  simp only [processMappings, hrs, Bool.false_eq_true, if_false]
  by_cases hse : (skip && store_exists rs.db m.storeId) = true
  · simp only [show store_exists ({ rs with stopReads := rs.stopReads + 1 } : RunState).db
        m.storeId = store_exists rs.db m.storeId from rfl, hse, if_true]
  · have hse' : (skip && store_exists rs.db m.storeId) = false := by
      simpa using hse
    simp only [show store_exists ({ rs with stopReads := rs.stopReads + 1 } : RunState).db
        m.storeId = store_exists rs.db m.storeId from rfl, hse', Bool.false_eq_true,
      if_false]
    rcases hdet : (get_store_details delay (env.detailOutcomes m.storeId)).1 with _ | rec <;>
      simp only [monitored_get_details, hdet]

theorem processMappings_pair (env : Env) (delay : ℚ) (skip : Bool) (dom : String)
    (hstop : env.externalStopAt = none) :
    ∀ (ms : List StoreMapping) (cnt : Nat) (rs1 rs2 : RunState),
      rs1.st.should_stop = false → rs2.st.should_stop = false → rs1.db = rs2.db →
      (processMappings env delay skip dom ms cnt rs1).1 = cnt + ms.length ∧
      (processMappings env delay skip dom ms cnt rs1).2.st.should_stop = false ∧
      (processMappings env delay skip dom ms cnt rs2).2.st.should_stop = false ∧
      (processMappings env delay skip dom ms cnt rs1).2.db =
        (processMappings env delay skip dom ms cnt rs2).2.db ∧
      ∃ E, (processMappings env delay skip dom ms cnt rs1).2.events = rs1.events ++ E ∧
        (processMappings env delay skip dom ms cnt rs2).2.events = rs2.events ++ E ∧
        ∀ e ∈ E, (∃ y, e = Event.detailFetch y) ∨ ∃ y b, e = Event.storeSave y b := by
  intro ms
  induction ms with
  | nil =>
    intro cnt rs1 rs2 h1 h2 hdb
    exact ⟨rfl, h1, h2, hdb, [], by simp [processMappings], by simp [processMappings],
      by simp⟩
  | cons m rest ih =>
    intro cnt rs1 rs2 h1 h2 hdb
    rw [processMappings_cons_stop env delay skip dom m rest cnt rs1 hstop h1,
      processMappings_cons_stop env delay skip dom m rest cnt rs2 hstop h2]
    by_cases hse : (skip && store_exists rs1.db m.storeId) = true
    · have hse2 : (skip && store_exists rs2.db m.storeId) = true := by
        rw [← hdb]; exact hse
      simp only [hse, hse2, if_true]
      obtain ⟨hc, hs1, hs2, hd, E, he1, he2, hE⟩ :=
        ih (cnt + 1) { rs1 with stopReads := rs1.stopReads + 1 }
          { rs2 with stopReads := rs2.stopReads + 1 } h1 h2 hdb
      exact ⟨hc.trans (by rw [List.length_cons]; omega), hs1, hs2, hd, E,
        he1.trans (by simp), he2.trans (by simp), hE⟩
    · have hse2 : ¬ ((skip && store_exists rs2.db m.storeId) = true) := by
        rw [← hdb]; exact hse
      simp only [hse, hse2, if_false]
      rcases hdet : (get_store_details delay (env.detailOutcomes m.storeId)).1 with _ | rec
      · obtain ⟨hc, hs1, hs2, hd, E, he1, he2, hE⟩ :=
          ih (cnt + 1)
            { rs1 with
                stopReads := rs1.stopReads + 1
                events := rs1.events ++ [Event.detailFetch m.storeId]
                errors := rs1.errors + 1
                st := { rs1.st with errors := rs1.errors + 1 } }
            { rs2 with
                stopReads := rs2.stopReads + 1
                events := rs2.events ++ [Event.detailFetch m.storeId]
                errors := rs2.errors + 1
                st := { rs2.st with errors := rs2.errors + 1 } }
            (by simpa using h1) (by simpa using h2) (by simpa using hdb)
        refine ⟨hc.trans (by rw [List.length_cons]; omega), hs1, hs2, hd,
          Event.detailFetch m.storeId :: E, he1.trans (by simp), he2.trans (by simp), ?_⟩
        intro e he
        rcases List.mem_cons.mp he with rfl | hmem
        · exact Or.inl ⟨m.storeId, rfl⟩
        · exact hE e hmem
      · obtain ⟨hc, hs1, hs2, hd, E, he1, he2, hE⟩ :=
          ih (cnt + 1)
            { rs1 with
                stopReads := rs1.stopReads + 1
                events := (rs1.events ++ [Event.detailFetch m.storeId]) ++
                  [Event.storeSave m.storeId (!env.saveFails m.storeId)]
                processed := rs1.processed + 1
                db := save_store_to_db rs1.db dom m.storeId m.purl rec
                  (env.saveFails m.storeId)
                st := { rs1.st with
                  consecutive_errors := 0
                  stores_saved := rs1.processed + 1 } }
            { rs2 with
                stopReads := rs2.stopReads + 1
                events := (rs2.events ++ [Event.detailFetch m.storeId]) ++
                  [Event.storeSave m.storeId (!env.saveFails m.storeId)]
                processed := rs2.processed + 1
                db := save_store_to_db rs2.db dom m.storeId m.purl rec
                  (env.saveFails m.storeId)
                st := { rs2.st with
                  consecutive_errors := 0
                  stores_saved := rs2.processed + 1 } }
            (by simp [h1]) (by simp [h2]) (by simp [hdb])
        refine ⟨hc.trans (by rw [List.length_cons]; omega), hs1, hs2, hd,
          Event.detailFetch m.storeId ::
            Event.storeSave m.storeId (!env.saveFails m.storeId) :: E,
          he1.trans (by simp), he2.trans (by simp), ?_⟩
        intro e he
        rcases List.mem_cons.mp he with rfl | hmem
        · exact Or.inl ⟨m.storeId, rfl⟩
        · rcases List.mem_cons.mp hmem with rfl | hmem2
          · exact Or.inr ⟨m.storeId, !env.saveFails m.storeId, rfl⟩
          · exact hE e hmem2

theorem stepDomain_skip_eq (env : Env) (delay : ℚ) (skip : Bool) (d : String)
    (i : Nat) (rs : RunState) (h : (skip && domain_scraped rs.db d) = true) :
    stepDomain env delay skip d i rs =
      ({ rs with
          st := { rs.st with current_domain := some d, domains_processed := i }
          skipped := rs.skipped + 1 }, true) := by
  simp [stepDomain, h]

theorem stepDomain_empty_eq (env : Env) (delay : ℚ) (skip : Bool) (d : String)
    (i : Nat) (rs : RunState) (h : (skip && domain_scraped rs.db d) = false)
    (hms : (get_store_ids_by_domain delay (env.mapOutcomes d)).1 = []) :
    stepDomain env delay skip d i rs =
      (markRS { rs with
          st := { rs.st with current_domain := some d, domains_processed := i }
          events := rs.events ++ [Event.mapFetch d] } d 0, true) := by
  simp [stepDomain, h, monitored_get_store_ids, hms]

theorem stepDomain_proc_eq (env : Env) (delay : ℚ) (skip : Bool) (d : String)
    (i : Nat) (rs : RunState) (hstop : env.externalStopAt = none)
    (hss : rs.st.should_stop = false)
    (h : (skip && domain_scraped rs.db d) = false)
    (ms : List StoreMapping)
    (hms : (get_store_ids_by_domain delay (env.mapOutcomes d)).1 = ms)
    (hne : ¬ (ms = [])) :
    stepDomain env delay skip d i rs =
      (let S : RunState := { rs with
          st := { rs.st with
            current_domain := some d
            domains_processed := i
            consecutive_errors := 0 }
          events := rs.events ++ [Event.mapFetch d] }
       let pr := processMappings env delay skip d ms 0 S
       ({ markRS pr.2 d pr.1 with stopReads := (markRS pr.2 d pr.1).stopReads + 1 },
        true)) := by
  have hS : ({ rs with
      st := { rs.st with
        current_domain := some d
        domains_processed := i
        consecutive_errors := 0 }
      events := rs.events ++ [Event.mapFetch d] } : RunState).st.should_stop = false := by
    simpa using hss
  have hpm := (processMappings_pair env delay skip d hstop ms 0 _ _ hS hS rfl).2.1
  simp only [stepDomain, monitored_get_store_ids, hms, hne, h]
  simp only [Bool.false_eq_true, if_false, if_neg hne]
  rw [readStop_of_none env _ hstop (by simpa [markRS] using hpm)]
  rfl

theorem stepDomain_pair (env : Env) (delay : ℚ) (skip : Bool) (d : String)
    (hstop : env.externalStopAt = none) (i1 i2 : Nat) (rs1 rs2 : RunState)
    (h1 : rs1.st.should_stop = false) (h2 : rs2.st.should_stop = false)
    (hdb : rs1.db = rs2.db) :
    (stepDomain env delay skip d i1 rs1).1.db = (stepDomain env delay skip d i2 rs2).1.db ∧
    (stepDomain env delay skip d i1 rs1).2 = true ∧
    (stepDomain env delay skip d i2 rs2).2 = true ∧
    (stepDomain env delay skip d i1 rs1).1.st.should_stop = false ∧
    (stepDomain env delay skip d i2 rs2).1.st.should_stop = false ∧
    ∃ E, (stepDomain env delay skip d i1 rs1).1.events = rs1.events ++ E ∧
      (stepDomain env delay skip d i2 rs2).1.events = rs2.events ++ E ∧
      ∀ e ∈ E, e = Event.mapFetch d ∨ (∃ y, e = Event.detailFetch y) ∨
        (∃ y b, e = Event.storeSave y b) ∨ ∃ c, e = Event.markDomain d c := by
  by_cases hskip : (skip && domain_scraped rs1.db d) = true
  · have hskip2 : (skip && domain_scraped rs2.db d) = true := by rw [← hdb]; exact hskip
    rw [stepDomain_skip_eq env delay skip d i1 rs1 hskip,
      stepDomain_skip_eq env delay skip d i2 rs2 hskip2]
    exact ⟨hdb, rfl, rfl, h1, h2, [], by simp, by simp, by simp⟩
  · have hskip' : (skip && domain_scraped rs1.db d) = false := by simpa using hskip
    have hskip2 : (skip && domain_scraped rs2.db d) = false := by rw [← hdb]; exact hskip'
    by_cases hempty : (get_store_ids_by_domain delay (env.mapOutcomes d)).1 = []
    · rw [stepDomain_empty_eq env delay skip d i1 rs1 hskip' hempty,
        stepDomain_empty_eq env delay skip d i2 rs2 hskip2 hempty]
      refine ⟨by simp [markRS, mark_domain_scraped, hdb], rfl, rfl,
        by simp [markRS, h1], by simp [markRS, h2],
        [Event.mapFetch d, Event.markDomain d 0], by simp [markRS], by simp [markRS], ?_⟩
      intro e he
      rcases List.mem_cons.mp he with rfl | he2
      · exact Or.inl rfl
      · simp at he2; subst he2; exact Or.inr (Or.inr (Or.inr ⟨0, rfl⟩))
    · rw [stepDomain_proc_eq env delay skip d i1 rs1 hstop h1 hskip' _ rfl hempty,
        stepDomain_proc_eq env delay skip d i2 rs2 hstop h2 hskip2 _ rfl hempty]
      have hS1 : ({ rs1 with
          st := { rs1.st with
            current_domain := some d
            domains_processed := i1
            consecutive_errors := 0 }
          events := rs1.events ++ [Event.mapFetch d] } : RunState).st.should_stop = false := by
        simpa using h1
      have hS2 : ({ rs2 with
          st := { rs2.st with
            current_domain := some d
            domains_processed := i2
            consecutive_errors := 0 }
          events := rs2.events ++ [Event.mapFetch d] } : RunState).st.should_stop = false := by
        simpa using h2
      obtain ⟨hc1, hss1, hss2, hdd, E, he1, he2, hE⟩ :=
        processMappings_pair env delay skip d hstop
          (get_store_ids_by_domain delay (env.mapOutcomes d)).1 0 _ _ hS1 hS2
          (by simpa using hdb)
      have hc2 : (processMappings env delay skip d
          (get_store_ids_by_domain delay (env.mapOutcomes d)).1 0
          ({ rs2 with
            st := { rs2.st with
              current_domain := some d
              domains_processed := i2
              consecutive_errors := 0 }
            events := rs2.events ++ [Event.mapFetch d] } : RunState)).1 =
          0 + (get_store_ids_by_domain delay (env.mapOutcomes d)).1.length := by
        have := (processMappings_pair env delay skip d hstop
          (get_store_ids_by_domain delay (env.mapOutcomes d)).1 0 _ _ hS2 hS2 rfl).1
        exact this
      refine ⟨?_, rfl, rfl, ?_, ?_, ?_⟩
      · simp only [markRS]
        simp [mark_domain_scraped, hdd, hc1, hc2]
      · simpa [markRS] using hss1
      · simpa [markRS] using hss2
      · refine ⟨Event.mapFetch d :: E ++
          [Event.markDomain d (get_store_ids_by_domain delay (env.mapOutcomes d)).1.length],
          ?_, ?_, ?_⟩
        · simp only [markRS]
          rw [hc1, he1]
          simp
        · simp only [markRS]
          rw [hc2, he2]
          simp
        · intro e he
          rcases List.mem_cons.mp he with rfl | he2
          · exact Or.inl rfl
          · rcases List.mem_append.mp he2 with he3 | he3
            · rcases hE e he3 with ⟨y, rfl⟩ | ⟨y, b, rfl⟩
              · exact Or.inr (Or.inl ⟨y, rfl⟩)
              · exact Or.inr (Or.inr (Or.inl ⟨y, b, rfl⟩))
            · simp at he3; subst he3
              exact Or.inr (Or.inr (Or.inr ⟨_, rfl⟩))

theorem save_scraped (db : DB) (dom sid purl : String) (details : StoreRecord)
    (fail : Bool) :
    (save_store_to_db db dom sid purl details fail).scraped_domains =
      db.scraped_domains := by
  by_cases h : fail = true <;> simp [save_store_to_db, h]

theorem processMappings_scraped (env : Env) (delay : ℚ) (skip : Bool) (dom : String)
    (hstop : env.externalStopAt = none) :
    ∀ (ms : List StoreMapping) (cnt : Nat) (rs : RunState),
      rs.st.should_stop = false →
      (processMappings env delay skip dom ms cnt rs).2.db.scraped_domains =
        rs.db.scraped_domains := by
  intro ms
  induction ms with
  | nil => intro cnt rs _; simp [processMappings]
  | cons m rest ih =>
    intro cnt rs hss
    rw [processMappings_cons_stop env delay skip dom m rest cnt rs hstop hss]
    by_cases hse : (skip && store_exists rs.db m.storeId) = true
    · rw [if_pos hse, ih]
      simpa using hss
    · rw [if_neg hse]
      rcases hdet : (get_store_details delay (env.detailOutcomes m.storeId)).1 with _ | rec
      · rw [ih]
        simpa using hss
      · rw [ih]
        · simp [save_scraped]
        · simpa using hss

theorem domain_scraped_mark_self (db : DB) (d : String) (c : Nat) :
    domain_scraped (mark_domain_scraped db d c) d = true := by
  simp [domain_scraped, mark_domain_scraped, List.any_append]

theorem domain_scraped_mark_mono (db : DB) (d : String) (c : Nat) (x : String)
    (h : domain_scraped db x = true) :
    domain_scraped (mark_domain_scraped db d c) x = true := by
  simp only [domain_scraped, List.any_eq_true] at h ⊢
  obtain ⟨r, hr, hrx⟩ := h
  by_cases hxd : r.domain = d
  · refine ⟨⟨d, c⟩, ?_, ?_⟩
    · simp [mark_domain_scraped]
    · simp only [beq_iff_eq] at hrx ⊢
      rw [← hxd, hrx]
  · refine ⟨r, ?_, hrx⟩
    simp [mark_domain_scraped, List.mem_filter, hr, hxd]

theorem stepDomain_single (env : Env) (delay : ℚ) (skip : Bool) (d : String)
    (hstop : env.externalStopAt = none) (i : Nat) (rs : RunState)
    (hss : rs.st.should_stop = false) :
    (stepDomain env delay skip d i rs).2 = true ∧
    (stepDomain env delay skip d i rs).1.st.should_stop = false ∧
    ∃ E, (stepDomain env delay skip d i rs).1.events = rs.events ++ E ∧
      ∀ e ∈ E, e = Event.mapFetch d ∨ (∃ y, e = Event.detailFetch y) ∨
        (∃ y b, e = Event.storeSave y b) ∨ ∃ c, e = Event.markDomain d c := by
  obtain ⟨_, hc, _, hs, _, E, he, _, hE⟩ :=
    stepDomain_pair env delay skip d hstop i i rs rs hss hss rfl
  exact ⟨hc, hs, E, he, hE⟩

theorem stepDomain_scraped_mono (env : Env) (delay : ℚ) (skip : Bool) (d : String)
    (hstop : env.externalStopAt = none) (i : Nat) (rs : RunState)
    (hss : rs.st.should_stop = false) (x : String)
    (h : domain_scraped rs.db x = true) :
    domain_scraped (stepDomain env delay skip d i rs).1.db x = true := by
  by_cases hskip : (skip && domain_scraped rs.db d) = true
  · rw [stepDomain_skip_eq env delay skip d i rs hskip]
    exact h
  · have hskip' : (skip && domain_scraped rs.db d) = false := by simpa using hskip
    by_cases hempty : (get_store_ids_by_domain delay (env.mapOutcomes d)).1 = []
    · rw [stepDomain_empty_eq env delay skip d i rs hskip' hempty]
      exact domain_scraped_mark_mono _ _ _ _ h
    · rw [stepDomain_proc_eq env delay skip d i rs hstop hss hskip' _ rfl hempty]
      refine domain_scraped_mark_mono _ _ _ _ ?_
      have hpm := processMappings_scraped env delay skip d hstop
        (get_store_ids_by_domain delay (env.mapOutcomes d)).1 0
        { rs with
            st := { rs.st with
              current_domain := some d
              domains_processed := i
              consecutive_errors := 0 }
            events := rs.events ++ [Event.mapFetch d] } (by simpa using hss)
      simp only [domain_scraped] at h ⊢
      rw [hpm]
      exact h

theorem stepDomain_marks_self (env : Env) (delay : ℚ) (skip : Bool) (d : String)
    (hstop : env.externalStopAt = none) (i : Nat) (rs : RunState)
    (hss : rs.st.should_stop = false) :
    domain_scraped (stepDomain env delay skip d i rs).1.db d = true := by
  by_cases hskip : (skip && domain_scraped rs.db d) = true
  · rw [stepDomain_skip_eq env delay skip d i rs hskip]
    exact (Bool.and_eq_true _ _).mp hskip |>.2
  · have hskip' : (skip && domain_scraped rs.db d) = false := by simpa using hskip
    by_cases hempty : (get_store_ids_by_domain delay (env.mapOutcomes d)).1 = []
    · rw [stepDomain_empty_eq env delay skip d i rs hskip' hempty]
      exact domain_scraped_mark_self _ _ _
    · rw [stepDomain_proc_eq env delay skip d i rs hstop hss hskip' _ rfl hempty]
      exact domain_scraped_mark_self _ _ _

theorem processDomains_cons_nostop (env : Env) (delay : ℚ) (skip : Bool)
    (d : String) (rest : List String) (i : Nat) (rs : RunState)
    (hstop : env.externalStopAt = none) (hss : rs.st.should_stop = false) :
    processDomains env delay skip (d :: rest) i rs =
      processDomains env delay skip rest (i + 1)
        (stepDomain env delay skip d i { rs with stopReads := rs.stopReads + 1 }).1 := by
  have hcont := (stepDomain_single env delay skip d hstop i
    { rs with stopReads := rs.stopReads + 1 } hss).1
  simp only [processDomains, readStop_of_none env rs hstop hss, Bool.false_eq_true,
    if_false, hcont, if_true]

theorem processDomains_ss (env : Env) (delay : ℚ) (skip : Bool)
    (hstop : env.externalStopAt = none) :
    ∀ (ds : List String) (i : Nat) (rs : RunState), rs.st.should_stop = false →
      (processDomains env delay skip ds i rs).st.should_stop = false := by
  intro ds
  induction ds with
  | nil => intro i rs hss; exact hss
  | cons d rest ih =>
    intro i rs hss
    rw [processDomains_cons_nostop env delay skip d rest i rs hstop hss]
    exact ih _ _ ((stepDomain_single env delay skip d hstop i
      { rs with stopReads := rs.stopReads + 1 } hss).2.1)

theorem processDomains_scraped_mono (env : Env) (delay : ℚ) (skip : Bool)
    (hstop : env.externalStopAt = none) :
    ∀ (ds : List String) (i : Nat) (rs : RunState) (x : String),
      rs.st.should_stop = false → domain_scraped rs.db x = true →
      domain_scraped (processDomains env delay skip ds i rs).db x = true := by
  intro ds
  induction ds with
  | nil => intro i rs x _ h; exact h
  | cons d rest ih =>
    intro i rs x hss h
    rw [processDomains_cons_nostop env delay skip d rest i rs hstop hss]
    exact ih _ _ x
      ((stepDomain_single env delay skip d hstop i
        { rs with stopReads := rs.stopReads + 1 } hss).2.1)
      (stepDomain_scraped_mono env delay skip d hstop i
        { rs with stopReads := rs.stopReads + 1 } hss x h)

theorem processDomains_all_marked (env : Env) (delay : ℚ) (skip : Bool)
    (hstop : env.externalStopAt = none) :
    ∀ (ds : List String) (i : Nat) (rs : RunState), rs.st.should_stop = false →
      ∀ x ∈ ds, domain_scraped (processDomains env delay skip ds i rs).db x = true := by
  intro ds
  induction ds with
  | nil => intro i rs _ x hx; simp at hx
  | cons d rest ih =>
    intro i rs hss x hx
    rw [processDomains_cons_nostop env delay skip d rest i rs hstop hss]
    have hss1 := (stepDomain_single env delay skip d hstop i
      { rs with stopReads := rs.stopReads + 1 } hss).2.1
    rcases List.mem_cons.mp hx with rfl | hx2
    · exact processDomains_scraped_mono env delay skip hstop rest (i + 1) _ x hss1
        (stepDomain_marks_self env delay skip x hstop i
          { rs with stopReads := rs.stopReads + 1 } hss)
    · exact ih _ _ hss1 x hx2

theorem processDomains_skip_all_marked (env : Env) (delay : ℚ)
    (hstop : env.externalStopAt = none) :
    ∀ (ds : List String) (i : Nat) (rs : RunState), rs.st.should_stop = false →
      (∀ x ∈ ds, domain_scraped rs.db x = true) →
      (processDomains env delay true ds i rs).db = rs.db ∧
      (processDomains env delay true ds i rs).events = rs.events ∧
      (processDomains env delay true ds i rs).st.should_stop = false := by
  intro ds
  induction ds with
  | nil => intro i rs hss _; exact ⟨rfl, rfl, hss⟩
  | cons d rest ih =>
    intro i rs hss hmk
    rw [processDomains_cons_nostop env delay true d rest i rs hstop hss]
    have hskip : (true && domain_scraped
        ({ rs with stopReads := rs.stopReads + 1 } : RunState).db d) = true := by
      simpa using hmk d (List.mem_cons_self d rest)
    rw [stepDomain_skip_eq env delay true d i _ hskip]
    exact ih _ _ hss (fun x hx => hmk x (List.mem_cons_of_mem d hx))

theorem processDomains_append (env : Env) (delay : ℚ) (skip : Bool)
    (hstop : env.externalStopAt = none) :
    ∀ (xs ys : List String) (i : Nat) (rs : RunState), rs.st.should_stop = false →
      processDomains env delay skip (xs ++ ys) i rs =
        processDomains env delay skip ys (i + xs.length)
          (processDomains env delay skip xs i rs) := by
  intro xs
  induction xs with
  | nil => intro ys i rs _; simp [processDomains]
  | cons d rest ih =>
    intro ys i rs hss
    rw [List.cons_append,
      processDomains_cons_nostop env delay skip d (rest ++ ys) i rs hstop hss,
      processDomains_cons_nostop env delay skip d rest i rs hstop hss,
      ih ys (i + 1) _ ((stepDomain_single env delay skip d hstop i
        { rs with stopReads := rs.stopReads + 1 } hss).2.1)]
    congr 1
    simp [List.length_cons]
    omega

theorem processDomains_pair (env : Env) (delay : ℚ) (skip : Bool)
    (hstop : env.externalStopAt = none) :
    ∀ (ds : List String) (i1 i2 : Nat) (rs1 rs2 : RunState),
      rs1.st.should_stop = false → rs2.st.should_stop = false → rs1.db = rs2.db →
      (processDomains env delay skip ds i1 rs1).db =
        (processDomains env delay skip ds i2 rs2).db := by
  intro ds
  induction ds with
  | nil => intro i1 i2 rs1 rs2 _ _ hdb; exact hdb
  | cons d rest ih =>
    intro i1 i2 rs1 rs2 h1 h2 hdb
    rw [processDomains_cons_nostop env delay skip d rest i1 rs1 hstop h1,
      processDomains_cons_nostop env delay skip d rest i2 rs2 hstop h2]
    obtain ⟨hd, _, _, hs1, hs2, _⟩ :=
      stepDomain_pair env delay skip d hstop i1 i2
        { rs1 with stopReads := rs1.stopReads + 1 }
        { rs2 with stopReads := rs2.stopReads + 1 } h1 h2 hdb
    exact ih _ _ _ _ hs1 hs2 hd

theorem processDomains_no_mapFetch (env : Env) (delay : ℚ)
    (hstop : env.externalStopAt = none) :
    ∀ (ds : List String) (i : Nat) (rs : RunState) (x : String),
      rs.st.should_stop = false → domain_scraped rs.db x = true →
      Event.mapFetch x ∉ rs.events →
      Event.mapFetch x ∉ (processDomains env delay true ds i rs).events := by
  intro ds
  induction ds with
  | nil => intro i rs x _ _ hne; simpa [processDomains] using hne
  | cons d rest ih =>
    intro i rs x hss hmk hne
    rw [processDomains_cons_nostop env delay true d rest i rs hstop hss]
    have hss1 := (stepDomain_single env delay true d hstop i
      { rs with stopReads := rs.stopReads + 1 } hss).2.1
    obtain ⟨_, _, E, hev, hE⟩ := stepDomain_single env delay true d hstop i
      { rs with stopReads := rs.stopReads + 1 } hss
    refine ih _ _ x hss1
      (stepDomain_scraped_mono env delay true d hstop i
        { rs with stopReads := rs.stopReads + 1 } hss x hmk) ?_
    rw [hev]
    intro hmem
    rcases List.mem_append.mp hmem with hm | hm
    · exact hne hm
    · have hdx : ¬ (d = x) := by
        intro heq
        subst heq
        rw [stepDomain_skip_eq env delay true d i _ (by simpa using hmk)] at hev
        have hE0 : E = [] := by
          have h2 := hev
          simp at h2
          exact h2
        rw [hE0] at hm
        simp at hm
      rcases hE _ hm with heq | ⟨y, heq⟩ | ⟨y, b, heq⟩ | ⟨c, heq⟩
      · injection heq with h
        exact hdx h.symm
      · exact absurd heq (by simp)
      · exact absurd heq (by simp)
      · exact absurd heq (by simp)

theorem finalizeRun_db (rs : RunState) : (finalizeRun rs).db = rs.db := rfl

theorem finalizeRun_events (rs : RunState) : (finalizeRun rs).events = rs.events := rfl

theorem scrape_monitored_nodomains_eq (env : Env) (delay : ℚ)
    (maxd : Option Nat) (skip : Bool) (db : DB) (st : ScraperState)
    (hD : env.domains = []) :
    scrape_all_stores_monitored env delay maxd skip db st =
      finalizeRun
        { db := db
          st := { startState st with
            last_error := some "No domains found in domains list" }
          events := []
          stopReads := 0
          processed := 0
          skipped := 0
          errors := 0 } := by
  simp [scrape_all_stores_monitored, hD]

theorem scrape_monitored_allmarked_eq (env : Env) (delay : ℚ)
    (maxd : Option Nat) (skip : Bool) (db : DB) (st : ScraperState)
    (sel : List String) (hD : ¬ (env.domains = []))
    (hsel : (match maxd with
      | some k => if k = 0 then env.domains else env.domains.take k
      | none => env.domains) = sel)
    (hmk : (skip && decide ((sel.filter (fun d => domain_scraped db d)).length =
      sel.length)) = true) :
    scrape_all_stores_monitored env delay maxd skip db st =
      finalizeRun
        { db := db
          st := { startState st with
            last_error := some "All selected domains already scraped" }
          events := []
          stopReads := 0
          processed := 0
          skipped := 0
          errors := 0 } := by
  simp only [scrape_all_stores_monitored, hsel, hmk]
  rw [if_neg hD]
  rfl

theorem scrape_monitored_run_eq (env : Env) (delay : ℚ)
    (maxd : Option Nat) (skip : Bool) (db : DB) (st : ScraperState)
    (sel : List String) (hD : ¬ (env.domains = []))
    (hsel : (match maxd with
      | some k => if k = 0 then env.domains else env.domains.take k
      | none => env.domains) = sel)
    (hmk : (skip && decide ((sel.filter (fun d => domain_scraped db d)).length =
      sel.length)) = false) :
    scrape_all_stores_monitored env delay maxd skip db st =
      finalizeRun (processDomains env delay skip sel 1
        { db := db
          st := { startState st with total_domains := sel.length }
          events := []
          stopReads := 0
          processed := 0
          skipped := 0
          errors := 0 }) := by
  simp only [scrape_all_stores_monitored, hsel, hmk]
  rw [if_neg hD]
  rfl

theorem all_of_length_filter {α : Type} (p : α → Bool) (l : List α)
    (h : (l.filter p).length = l.length) : ∀ x ∈ l, p x = true := by
  induction l with
  | nil => intro x hx; simp at hx
  | cons a t ih =>
    intro x hx
    by_cases hpa : p a = true
    · rcases List.mem_cons.mp hx with rfl | hx2
      · exact hpa
      · refine ih ?_ x hx2
        simpa [List.filter_cons, hpa] using h
    · exfalso
      have hle := List.length_filter_le p t
      have hpa' : p a = false := by simpa using hpa
      simp [List.filter_cons, hpa'] at h
      omega

/-- C2: a crawl truncated to the first k domains (the database state of a run interrupted after the marker of domain k is written and before domain k+1 starts) followed by a restart with resume enabled produces the same final database as an uninterrupted resume-mode run over the same domain list and the same transport outcomes, and the restarted run issues no mapping fetch for any domain already marked at restart. -/
theorem c2_resume_matches_uninterrupted (env : Env) (delay : ℚ) (k : Nat) (st1 st2 st3 : ScraperState)
    (hstop : env.externalStopAt = none) (hk : 0 < k) :
    (scrape_all_stores_monitored env delay none true
        (scrape_all_stores_monitored env delay (some k) true emptyDB st1).db st2).db =
      (scrape_all_stores_monitored env delay none true emptyDB st3).db ∧
    ∀ x, domain_scraped
        (scrape_all_stores_monitored env delay (some k) true emptyDB st1).db x = true →
      Event.mapFetch x ∉ (scrape_all_stores_monitored env delay none true
        (scrape_all_stores_monitored env delay (some k) true emptyDB st1).db st2).events := by
  by_cases hD : env.domains = []
  · rw [scrape_monitored_nodomains_eq env delay (some k) true emptyDB st1 hD]
    rw [scrape_monitored_nodomains_eq env delay none true _ st2 hD,
      scrape_monitored_nodomains_eq env delay none true emptyDB st3 hD]
    exact ⟨rfl, fun x _ => by simp [finalizeRun]⟩
  · have hDlen : 0 < env.domains.length := List.length_pos.mpr hD
    have hsel1 : (match (some k : Option Nat) with
        | some k => if k = 0 then env.domains else env.domains.take k
        | none => env.domains) = env.domains.take k := by
      simp [Nat.pos_iff_ne_zero.mp hk]
    have hselN : (match (none : Option Nat) with
        | some k => if k = 0 then env.domains else env.domains.take k
        | none => env.domains) = env.domains := rfl
    have hmarked_empty : ∀ (l : List String),
        (l.filter (fun d => domain_scraped emptyDB d)).length = 0 := by
      intro l
      simp [domain_scraped, emptyDB]
    have hmk1 : (true && decide (((env.domains.take k).filter
        (fun d => domain_scraped emptyDB d)).length =
        (env.domains.take k).length)) = false := by
      simp [hmarked_empty, List.length_take]
      omega
    have hmkN : (true && decide ((env.domains.filter
        (fun d => domain_scraped emptyDB d)).length = env.domains.length)) = false := by
      simp [hmarked_empty]
      omega
    rw [scrape_monitored_run_eq env delay (some k) true emptyDB st1 _ hD hsel1 hmk1]
    rw [scrape_monitored_run_eq env delay none true emptyDB st3 _ hD hselN hmkN]
    simp only [finalizeRun_db]
    set P1 := processDomains env delay true (env.domains.take k) 1
      { db := emptyDB
        st := { startState st1 with total_domains := (env.domains.take k).length }
        events := []
        stopReads := 0
        processed := 0
        skipped := 0
        errors := 0 } with hP1
    set Q1 := processDomains env delay true (env.domains.take k) 1
      { db := emptyDB
        st := { startState st3 with total_domains := env.domains.length }
        events := []
        stopReads := 0
        processed := 0
        skipped := 0
        errors := 0 } with hQ1
    have hQP : Q1.db = P1.db :=
      processDomains_pair env delay true hstop (env.domains.take k) 1 1 _ _ rfl rfl rfl
    have hPss : P1.st.should_stop = false :=
      processDomains_ss env delay true hstop _ 1 _ rfl
    have hQss : Q1.st.should_stop = false :=
      processDomains_ss env delay true hstop _ 1 _ rfl
    have hPmk : ∀ x ∈ env.domains.take k, domain_scraped P1.db x = true :=
      processDomains_all_marked env delay true hstop _ 1 _ rfl
    have hfull : (processDomains env delay true env.domains 1
        { db := emptyDB
          st := { startState st3 with total_domains := env.domains.length }
          events := []
          stopReads := 0
          processed := 0
          skipped := 0
          errors := 0 }).db =
        (processDomains env delay true (env.domains.drop k)
          (1 + (env.domains.take k).length) Q1).db := by
      conv_lhs => rw [← List.take_append_drop k env.domains]
      rw [processDomains_append env delay true hstop _ _ 1 _ rfl]
      refine processDomains_pair env delay true hstop _ _ _ _ _ ?_ hQss ?_
      · exact processDomains_ss env delay true hstop _ _ _ rfl
      · exact processDomains_pair env delay true hstop _ 1 1 _ _ rfl rfl rfl
    by_cases hall : ((env.domains.filter (fun d => domain_scraped P1.db d)).length =
        env.domains.length)
    · have hallmem : ∀ x ∈ env.domains, domain_scraped P1.db x = true :=
        all_of_length_filter _ _ hall
      rw [scrape_monitored_allmarked_eq env delay none true P1.db st2 _ hD hselN
        (by simp [hall])]
      constructor
      · rw [finalizeRun_db, hfull]
        have hskipall := processDomains_skip_all_marked env delay hstop
          (env.domains.drop k) (1 + (env.domains.take k).length) Q1 hQss
          (fun x hx => by rw [hQP]; exact hallmem x (List.drop_subset k env.domains hx))
        rw [hskipall.1, hQP]
      · intro x _
        simp [finalizeRun]
    · rw [scrape_monitored_run_eq env delay none true P1.db st2 _ hD hselN
        (by simp [hall])]
      set R0 : RunState :=
        { db := P1.db
          st := { startState st2 with total_domains := env.domains.length }
          events := []
          stopReads := 0
          processed := 0
          skipped := 0
          errors := 0 } with hR0
      have hres : (processDomains env delay true env.domains 1 R0).db =
          (processDomains env delay true (env.domains.drop k)
            (1 + (env.domains.take k).length)
            (processDomains env delay true (env.domains.take k) 1 R0)).db := by
        conv_lhs => rw [← List.take_append_drop k env.domains]
        rw [processDomains_append env delay true hstop _ _ 1 _ rfl]
      have hR1 := processDomains_skip_all_marked env delay hstop
        (env.domains.take k) 1 R0 rfl (fun x hx => hPmk x hx)
      constructor
      · rw [finalizeRun_db, hres, hfull]
        exact processDomains_pair env delay true hstop (env.domains.drop k) _ _ _ _
          hR1.2.2 hQss (by rw [hR1.1, hQP])
      · intro x hx
        rw [finalizeRun_events]
        exact processDomains_no_mapFetch env delay hstop env.domains 1 R0 x rfl hx
          (by simp)

/-- C3 (amended): in a run without a stop request, processing one reached, non-skipped domain appends exactly one markDomain event for it, as the last action of the attempt, after the events of all its mappings, and carrying the full mapping count; hence the marker is written exactly once per crawl attempt over the domain and only after all mappings have been handled, and a crash before that point leaves no marker; a cooperative stop arriving mid-domain, however, still writes the marker with the partial count. -/
theorem c3_marker_once_after_mappings (env : Env) (delay : ℚ) (skip : Bool) (d : String) (i : Nat)
    (rs : RunState) (hstop : env.externalStopAt = none)
    (hss : rs.st.should_stop = false)
    (h : (skip && domain_scraped rs.db d) = false) :
    ∃ inner, (stepDomain env delay skip d i rs).1.events =
        rs.events ++ [Event.mapFetch d] ++ inner ++
          [Event.markDomain d (get_store_ids_by_domain delay (env.mapOutcomes d)).1.length] ∧
      (∀ e ∈ inner, ∀ c, ¬ (e = Event.markDomain d c)) ∧
      (stepDomain env delay skip d i rs).2 = true := by
  by_cases hempty : (get_store_ids_by_domain delay (env.mapOutcomes d)).1 = []
  · rw [stepDomain_empty_eq env delay skip d i rs h hempty]
    refine ⟨[], ?_, by simp, rfl⟩
    simp [markRS, hempty]
  · rw [stepDomain_proc_eq env delay skip d i rs hstop hss h _ rfl hempty]
    have hS : ({ rs with
        st := { rs.st with
          current_domain := some d
          domains_processed := i
          consecutive_errors := 0 }
        events := rs.events ++ [Event.mapFetch d] } : RunState).st.should_stop = false := by
      simpa using hss
    obtain ⟨hc, _, _, _, E, he, _, hE⟩ :=
      processMappings_pair env delay skip d hstop
        (get_store_ids_by_domain delay (env.mapOutcomes d)).1 0 _ _ hS hS rfl
    refine ⟨E, ?_, ?_, rfl⟩
    · simp only [markRS]
      rw [hc, he]
      simp
    · intro e heE c
      rcases hE e heE with ⟨y, rfl⟩ | ⟨y, b, rfl⟩ <;> simp

theorem processMappingsBase_cons (env : Env) (delay : ℚ) (skip : Bool) (dom : String)
    (m : StoreMapping) (rest : List StoreMapping) (cnt : Nat) (bs : BaseRun) :
    processMappingsBase env delay skip dom (m :: rest) cnt bs =
      if skip && store_exists bs.db m.storeId then
        processMappingsBase env delay skip dom rest (cnt + 1) bs
      else
        match (get_store_details delay (env.detailOutcomes m.storeId)).1 with
        | some rec =>
          processMappingsBase env delay skip dom rest (cnt + 1)
            { bs with
                db := save_store_to_db bs.db dom m.storeId m.purl rec
                  (env.saveFails m.storeId)
                events := (bs.events ++ [Event.detailFetch m.storeId]) ++
                  [Event.storeSave m.storeId (!env.saveFails m.storeId)]
                processed := bs.processed + 1 }
        | none =>
          processMappingsBase env delay skip dom rest cnt
            { bs with
                events := bs.events ++ [Event.detailFetch m.storeId]
                errors := bs.errors + 1 } := rfl

theorem processMappingsBase_spec (env : Env) (delay : ℚ) (skip : Bool) (dom : String) :
    ∀ (ms : List StoreMapping) (cnt : Nat) (bs : BaseRun),
      (processMappingsBase env delay skip dom ms cnt bs).1 +
        (processMappingsBase env delay skip dom ms cnt bs).2.errors =
        cnt + bs.errors + ms.length ∧
      ∃ inner, (processMappingsBase env delay skip dom ms cnt bs).2.events =
          bs.events ++ inner ∧
        ∀ e ∈ inner, (∃ y, e = Event.detailFetch y) ∨ ∃ y b, e = Event.storeSave y b := by
  intro ms
  induction ms with
  | nil =>
    intro cnt bs
    exact ⟨rfl, [], by simp [processMappingsBase], by simp⟩
  | cons m rest ih =>
    intro cnt bs
    rw [processMappingsBase_cons]
    by_cases hse : (skip && store_exists bs.db m.storeId) = true
    · rw [if_pos hse]
      obtain ⟨hc, inner, he, hI⟩ := ih (cnt + 1) bs
      exact ⟨by rw [hc, List.length_cons]; omega, inner, he, hI⟩
    · rw [if_neg hse]
      rcases hdet : (get_store_details delay (env.detailOutcomes m.storeId)).1 with _ | rec
      · obtain ⟨hc, inner, he, hI⟩ := ih cnt
          { bs with
              events := bs.events ++ [Event.detailFetch m.storeId]
              errors := bs.errors + 1 }
        refine ⟨by rw [hc]; simp [List.length_cons]; omega,
          Event.detailFetch m.storeId :: inner, ?_, ?_⟩
        · rw [he]; simp
        · intro e he2
          rcases List.mem_cons.mp he2 with rfl | hmem
          · exact Or.inl ⟨m.storeId, rfl⟩
          · exact hI e hmem
      · obtain ⟨hc, inner, he, hI⟩ := ih (cnt + 1)
          { bs with
              db := save_store_to_db bs.db dom m.storeId m.purl rec
                (env.saveFails m.storeId)
              events := (bs.events ++ [Event.detailFetch m.storeId]) ++
                [Event.storeSave m.storeId (!env.saveFails m.storeId)]
              processed := bs.processed + 1 }
        refine ⟨by rw [hc]; simp [List.length_cons]; omega,
          Event.detailFetch m.storeId ::
            Event.storeSave m.storeId (!env.saveFails m.storeId) :: inner, ?_, ?_⟩
        · rw [he]; simp
        · intro e he2
          rcases List.mem_cons.mp he2 with rfl | hmem
          · exact Or.inl ⟨m.storeId, rfl⟩
          · rcases List.mem_cons.mp hmem with rfl | hmem2
            · exact Or.inr ⟨m.storeId, !env.saveFails m.storeId, rfl⟩
            · exact hI e hmem2

/-- C5 (amended): the base controller marks every reached, non-skipped domain exactly once, with the marker event last, after the events of its mappings, regardless of individual fetch failures; the recorded count plus the number of failed detail fetches of the attempt equals the number of mappings, that is, the count covers only mappings skipped as already stored or fetched and saved; a domain whose mapping call returns an empty sequence is marked with count 0. -/
theorem c5_marked_with_success_count (env : Env) (delay : ℚ) (skip : Bool) (d : String)
    (bs : BaseRun) (h : (skip && domain_scraped bs.db d) = false) :
    ∃ c inner,
      (stepDomainBase env delay skip bs d).events =
        bs.events ++ [Event.mapFetch d] ++ inner ++ [Event.markDomain d c] ∧
      (∀ e ∈ inner, ∀ d' c', ¬ (e = Event.markDomain d' c')) ∧
      c + (stepDomainBase env delay skip bs d).errors =
        (get_store_ids_by_domain delay (env.mapOutcomes d)).1.length + bs.errors := by
  by_cases hempty : (get_store_ids_by_domain delay (env.mapOutcomes d)).1 = []
  · refine ⟨0, [], ?_, by simp, ?_⟩
    · simp [stepDomainBase, h, hempty, markBS]
    · simp [stepDomainBase, h, hempty, markBS]
  · obtain ⟨hc, inner, he, hI⟩ := processMappingsBase_spec env delay skip d
      (get_store_ids_by_domain delay (env.mapOutcomes d)).1 0
      { bs with events := bs.events ++ [Event.mapFetch d] }
    refine ⟨(processMappingsBase env delay skip d
        (get_store_ids_by_domain delay (env.mapOutcomes d)).1 0
        { bs with events := bs.events ++ [Event.mapFetch d] }).1, inner, ?_, ?_, ?_⟩
    · simp only [stepDomainBase, h, Bool.false_eq_true, if_false, if_neg hempty, markBS]
      rw [he]
    · intro e he2 d' c'
      rcases hI e he2 with ⟨y, rfl⟩ | ⟨y, b, rfl⟩ <;> simp
    · simp only [stepDomainBase, h, Bool.false_eq_true, if_false, if_neg hempty, markBS]
      have hc2 := hc
      simp at hc2
      omega

/-- C6 (amended): the store-row upsert and the delete-then-insert replacement of the coupon and partial-url child rows form one transaction: a failing save leaves the database unchanged, and the failure never propagates to the controller, which continues with the remaining mappings; the save failure is however not added to the error count, and the store is still counted as saved. -/
theorem c6_save_rollback_contained :
    (∀ (db : DB) (dom sid pu : String) (det : StoreRecord),
      save_store_to_db db dom sid pu det true = db) ∧
    (∀ (env : Env) (delay : ℚ) (skip : Bool) (dom : String) (m : StoreMapping)
      (rest : List StoreMapping) (cnt : Nat) (rs : RunState) (rec : StoreRecord),
      env.externalStopAt = none → rs.st.should_stop = false →
      (get_store_details delay (env.detailOutcomes m.storeId)).1 = some rec →
      env.saveFails m.storeId = true →
      (skip && store_exists rs.db m.storeId) = false →
      ∃ rs2, processMappings env delay skip dom (m :: rest) cnt rs =
          processMappings env delay skip dom rest (cnt + 1) rs2 ∧
        rs2.db = rs.db ∧ rs2.st.errors = rs.st.errors ∧ rs2.errors = rs.errors ∧
        rs2.processed = rs.processed + 1 ∧
        rs2.st.stores_saved = rs.processed + 1) := by
  constructor
  · intro db dom sid pu det
    simp [save_store_to_db]
  · intro env delay skip dom m rest cnt rs rec hstop hss hdet hfail hsk
    rw [processMappings_cons_stop env delay skip dom m rest cnt rs hstop hss,
      if_neg (by simp [hsk]), hdet]
    refine ⟨{ rs with
        stopReads := rs.stopReads + 1
        events := (rs.events ++ [Event.detailFetch m.storeId]) ++
          [Event.storeSave m.storeId (!env.saveFails m.storeId)]
        processed := rs.processed + 1
        db := save_store_to_db rs.db dom m.storeId m.purl rec (env.saveFails m.storeId)
        st := { rs.st with
          consecutive_errors := 0
          stores_saved := rs.processed + 1 } }, rfl, ?_, rfl, rfl, rfl, rfl⟩
    simp [hfail, save_store_to_db]

/-- Witness for c2_resume_matches_uninterrupted at a concrete two-domain environment with k = 1. -/
theorem c2_resume_witness :
    0 < 1 ∧
    ((scrape_all_stores_monitored envResume 0 none true
        (scrape_all_stores_monitored envResume 0 (some 1) true emptyDB
          scraper_state0).db scraper_state0).db =
      (scrape_all_stores_monitored envResume 0 none true emptyDB scraper_state0).db ∧
    ∀ x, domain_scraped
        (scrape_all_stores_monitored envResume 0 (some 1) true emptyDB
          scraper_state0).db x = true →
      Event.mapFetch x ∉ (scrape_all_stores_monitored envResume 0 none true
        (scrape_all_stores_monitored envResume 0 (some 1) true emptyDB
          scraper_state0).db scraper_state0).events) :=
  ⟨by decide,
   c2_resume_matches_uninterrupted envResume 0 1 scraper_state0 scraper_state0 scraper_state0 rfl (by decide)⟩

/-- Witness for c3_marker_once_after_mappings at a concrete domain of one mapping. -/
theorem c3_marker_witness :
    (true && domain_scraped runState0.db "a") = false ∧
    ∃ inner, (stepDomain envResume 0 true "a" 1 runState0).1.events =
        runState0.events ++ [Event.mapFetch "a"] ++ inner ++
          [Event.markDomain "a"
            (get_store_ids_by_domain 0 (envResume.mapOutcomes "a")).1.length] ∧
      (∀ e ∈ inner, ∀ c, ¬ (e = Event.markDomain "a" c)) ∧
      (stepDomain envResume 0 true "a" 1 runState0).2 = true :=
  ⟨by decide, c3_marker_once_after_mappings envResume 0 true "a" 1 runState0 rfl rfl (by decide)⟩

/-- Witness for c5_marked_with_success_count at a domain whose single detail fetch fails. -/
theorem c5_marked_witness :
    (true && domain_scraped baseRun0.db "a") = false ∧
    ∃ c inner,
      (stepDomainBase envDetailFails 0 true baseRun0 "a").events =
        baseRun0.events ++ [Event.mapFetch "a"] ++ inner ++ [Event.markDomain "a" c] ∧
      (∀ e ∈ inner, ∀ d' c', ¬ (e = Event.markDomain d' c')) ∧
      c + (stepDomainBase envDetailFails 0 true baseRun0 "a").errors =
        (get_store_ids_by_domain 0 (envDetailFails.mapOutcomes "a")).1.length +
          baseRun0.errors :=
  ⟨by decide, c5_marked_with_success_count envDetailFails 0 true "a" baseRun0 (by decide)⟩

/-- Witness for c6_save_rollback_contained at a concrete failing save. -/
theorem c6_save_witness :
    save_store_to_db emptyDB "a" "s" "u" sampleRecord true = emptyDB ∧
    ∃ rs2, processMappings envSaveFails 0 true "a" [⟨"s", "u"⟩] 0 runState0 =
        processMappings envSaveFails 0 true "a" [] (0 + 1) rs2 ∧
      rs2.db = runState0.db ∧ rs2.st.errors = runState0.st.errors ∧
      rs2.errors = runState0.errors ∧ rs2.processed = runState0.processed + 1 ∧
      rs2.st.stores_saved = runState0.processed + 1 :=
  ⟨c6_save_rollback_contained.1 emptyDB "a" "s" "u" sampleRecord,
   c6_save_rollback_contained.2 envSaveFails 0 true "a" ⟨"s", "u"⟩ [] 0 runState0 sampleRecord
     rfl rfl (by decide) (by decide) (by decide)⟩
